import Mathlib

/-!
Verification of the multi-camera zone/line visitor counter
(`zone_counter.py`, class `MultiSourceZoneVisitorCounter`).

The embedding models one camera's state.  Python dictionaries become
association lists (`List (κ × α)`) with python-dict semantics: assignment
replaces in place or appends, deletion removes the (unique) entry, and
iteration follows list order.  Wall-clock times and pixel positions are
rationals (`Rat`); datetime differences in seconds become subtraction on
`Rat`.  Zone/line corner coordinates are integers, exactly as the
validated configuration lists.  Comparisons that python performs on
`float` square roots (`np.sqrt(d) >= 10`, `np.linalg.norm(v) < thr`) are
modelled exactly on squares (`d ≥ 100`, `v² < thr²`).
-/

set_option autoImplicit false

namespace Counter

/-- Dictionary read: first entry with the given key, if any. -/
def alookup {κ α : Type} [DecidableEq κ] : List (κ × α) → κ → Option α
  | [], _ => none
  | (k', v) :: rest, k => if k' = k then some v else alookup rest k

/-- Dictionary read with a default (python `defaultdict` access pattern
where the caller always writes the value back). -/
def alookupD {κ α : Type} [DecidableEq κ] (l : List (κ × List α)) (k : κ) : List α :=
  (alookup l k).getD []

/-- Dictionary assignment `d[k] = v`: replace in place if present, else append. -/
def aset {κ α : Type} [DecidableEq κ] : List (κ × α) → κ → α → List (κ × α)
  | [], k, v => [(k, v)]
  | (k', v') :: rest, k, v =>
    if k' = k then (k, v) :: rest else (k', v') :: aset rest k v

/-- Dictionary deletion `del d[k]` (no-op when the key is absent, matching
the guarded deletes in the source). -/
def aerase {κ α : Type} [DecidableEq κ] : List (κ × α) → κ → List (κ × α)
  | [], _ => []
  | (k', v') :: rest, k =>
    if k' = k then rest else (k', v') :: aerase rest k

/-- In-place update of an existing entry only (python
`if k in d: mutate d[k]`). -/
def amodify {κ α : Type} [DecidableEq κ] (l : List (κ × α)) (k : κ) (f : α → α) :
    List (κ × α) :=
  l.map fun e => if e.1 = k then (e.1, f e.2) else e

/-- `CounterConfig` from the source, with the source defaults. -/
structure CounterConfig where
  frame_height : Int := 1080
  frame_width : Int := 1920
  zone_padding : Int := 30
  min_dwell_frames : Nat := 3
  min_dwell_time : Rat := 1
  exit_grace_time : Rat := 1
  crossing_cooldown_seconds : Rat := 2
  min_movement_threshold : Rat := 5
  state_confirmation_frames : Nat := 3
  max_history_entries : Nat := 1000
  cleanup_interval_minutes : Nat := 5
deriving DecidableEq

def defaultConfig : CounterConfig := {}

/-- One per-person entry of `person_state_buffer[camera][zone]`. -/
structure BufEntry where
  state : Bool
  count : Nat
  last_update : Rat
deriving DecidableEq

/-- `_update_state_buffer` acting on one person's buffer entry.  Returns the
written entry and the boolean the method returns ("stable"). -/
def updateStateBuffer (cfg : CounterConfig) (entry : Option BufEntry)
    (is_inside : Bool) (now : Rat) : BufEntry × Bool :=
  match entry with
  | none => (⟨is_inside, 1, now⟩, false)
  | some d =>
    if d.state ≠ is_inside then
      (⟨is_inside, 1, now⟩, false)
    else
      (⟨d.state, d.count + 1, now⟩, decide (d.count + 1 ≥ cfg.min_dwell_frames))

/-- The two `PersonState` values a dwell record can actually hold. -/
inductive PState where
  | inside
  | exiting
deriving DecidableEq

/-- One per-person entry of `person_dwell_tracker[camera][zone]`. -/
structure DwellEntry where
  entry_time : Rat
  last_seen : Rat
  counted : Bool
  exit_time : Option Rat
  state : PState
deriving DecidableEq

/-- The `action` strings `_update_dwell_tracker` can return. -/
inductive DwellAction where
  | entered
  | noneAct
  | reEntered
  | qualifiedEntry
  | dwelling
  | exiting
  | confirmedExit
  | outside
deriving DecidableEq

/-- The dictionary `_update_dwell_tracker` returns. -/
structure DwellResult where
  action : DwellAction
  dwell_time : Rat
  should_count : Bool
deriving DecidableEq

/-- `_update_dwell_tracker` acting on one person's dwell record: the new
record (`none` = deleted) and the result dictionary. -/
def updateDwellTracker (cfg : CounterConfig) (entry : Option DwellEntry)
    (is_inside : Bool) (now : Rat) : Option DwellEntry × DwellResult :=
  match entry with
  | none =>
    if is_inside then
      (some ⟨now, now, false, none, PState.inside⟩, ⟨.entered, 0, false⟩)
    else
      (none, ⟨.noneAct, 0, false⟩)
  | some e =>
    if is_inside then
      if e.state = PState.exiting then
        (some { e with state := PState.inside, exit_time := none, last_seen := now },
         ⟨.reEntered, 0, false⟩)
      else
        let dwell_time := now - e.entry_time
        if ¬ e.counted ∧ dwell_time ≥ cfg.min_dwell_time then
          (some { e with last_seen := now, counted := true },
           ⟨.qualifiedEntry, dwell_time, true⟩)
        else
          (some { e with last_seen := now }, ⟨.dwelling, dwell_time, false⟩)
    else
      if e.state = PState.inside then
        (some { e with state := PState.exiting, exit_time := some now },
         ⟨.exiting, now - e.entry_time, e.counted⟩)
      else
        match e.exit_time with
        | some et =>
          if now - et ≥ cfg.exit_grace_time then
            (none, ⟨.confirmedExit, et - e.entry_time, e.counted⟩)
          else
            (some e, ⟨.outside, 0, false⟩)
        | none => (some e, ⟨.outside, 0, false⟩)

/-- `_is_in_zone`: test against the padded rectangle, falling back to the
raw rectangle when the padding collapses it. -/
def isInZone (cfg : CounterConfig) (p : Rat × Rat) (tl br : Int × Int) : Bool :=
  let px1 : Int := tl.1 + cfg.zone_padding
  let py1 : Int := tl.2 + cfg.zone_padding
  let px2 : Int := br.1 - cfg.zone_padding
  let py2 : Int := br.2 - cfg.zone_padding
  if px1 ≥ px2 ∨ py1 ≥ py2 then
    decide ((tl.1 : Rat) ≤ p.1 ∧ p.1 ≤ (br.1 : Rat) ∧
            (tl.2 : Rat) ≤ p.2 ∧ p.2 ≤ (br.2 : Rat))
  else
    decide ((px1 : Rat) ≤ p.1 ∧ p.1 ≤ (px2 : Rat) ∧
            (py1 : Rat) ≤ p.2 ∧ p.2 ≤ (py2 : Rat))

/-- A person detection: a bounding box `(id, x1, y1, x2, y2)` or a point
`(id, x, y)`. -/
inductive Detection where
  | box (pid : Nat) (x1 y1 x2 y2 : Rat)
  | pt (pid : Nat) (x y : Rat)
deriving DecidableEq

def Detection.pid : Detection → Nat
  | .box p _ _ _ _ => p
  | .pt p _ _ => p

/-- `_get_person_position` with `method="center"` (the method every caller
in `update_counts` uses). -/
def getPersonPosition : Detection → Rat × Rat
  | .box _ x1 y1 x2 y2 => ((x1 + x2) / 2, (y1 + y2) / 2)
  | .pt _ x y => (x, y)

/-- `_validate_person_data` on a structurally well-formed tuple. -/
def validPersonData : Detection → Bool
  | .box _ x1 y1 x2 y2 => decide (x1 < x2 ∧ y1 < y2)
  | .pt _ _ _ => true

/-- The `action` strings stored in history entries. -/
inductive ActionType where
  | entered
  | exited
  | lineIn
  | lineOut
deriving DecidableEq

/-- One history entry `{id, action, time}`. -/
structure HistEntry where
  id : Nat
  action : ActionType
  time : Rat
deriving DecidableEq

/-- `_trim_history` with the configured cap: keep the most recent
`max_history_entries` entries. -/
def trimHistory (cfg : CounterConfig) (h : List HistEntry) : List HistEntry :=
  if h.length > cfg.max_history_entries then
    h.drop (h.length - cfg.max_history_entries)
  else h

/-- One zone's entry of `data[camera]["zones"]`. -/
structure ZoneData where
  top_left : Int × Int
  bottom_right : Int × Int
  in_count : Nat
  out_count : Nat
  inside_ids : List Nat
  history : List HistEntry
deriving DecidableEq

/-- The in-frame accumulator of `_process_zones` for one zone: the zone's
state buffer and dwell tracker plus the local variables `current_inside`,
`entries_to_count`, `exits_to_count`. -/
structure ZoneProc where
  buffer : List (Nat × BufEntry)
  dwell : List (Nat × DwellEntry)
  currentInside : List Nat
  entries : List Nat
  exits : List Nat
deriving DecidableEq

/-- The per-detection body of the first loop in `_process_zones`. -/
def zoneStep (cfg : CounterConfig) (tl br : Int × Int) (now : Rat)
    (s : ZoneProc) (d : Detection) : ZoneProc :=
  let pid := d.pid
  let pos := getPersonPosition d
  let is_inside := isInZone cfg pos tl br
  let bres := updateStateBuffer cfg (alookup s.buffer pid) is_inside now
  let buffer := aset s.buffer pid bres.1
  if bres.2 then
    let currentInside :=
      if is_inside ∧ pid ∉ s.currentInside then s.currentInside ++ [pid]
      else s.currentInside
    let dres := updateDwellTracker cfg (alookup s.dwell pid) is_inside now
    let dwell :=
      match dres.1 with
      | some e => aset s.dwell pid e
      | none => aerase s.dwell pid
    let entries :=
      if dres.2.should_count ∧ dres.2.action = .qualifiedEntry then
        s.entries ++ [pid]
      else s.entries
    let exits :=
      if dres.2.should_count ∧ dres.2.action = .confirmedExit then
        s.exits ++ [pid]
      else s.exits
    ⟨buffer, dwell, currentInside, entries, exits⟩
  else
    { s with buffer := buffer }

/-- The per-person body of the absent-person loop in `_process_zones`. -/
def zoneAbsentStep (cfg : CounterConfig) (now : Rat) (activeIds : List Nat)
    (s : ZoneProc) (pid : Nat) : ZoneProc :=
  if pid ∈ activeIds then s
  else
    let dres := updateDwellTracker cfg (alookup s.dwell pid) false now
    let dwell :=
      match dres.1 with
      | some e => aset s.dwell pid e
      | none => aerase s.dwell pid
    let exits :=
      if dres.2.should_count ∧ dres.2.action = .confirmedExit then
        s.exits ++ [pid]
      else s.exits
    { s with dwell := dwell, exits := exits }

/-- The absent-person loop of `_process_zones`: iterates over a snapshot of
the dwell tracker's keys. -/
def zoneAbsent (cfg : CounterConfig) (now : Rat) (activeIds : List Nat)
    (s : ZoneProc) : ZoneProc :=
  (s.dwell.map Prod.fst).foldl (zoneAbsentStep cfg now activeIds) s

/-- Everything `_process_zones` produces for one zone. -/
structure ZoneOutcome where
  zone : ZoneData
  buffer : List (Nat × BufEntry)
  dwell : List (Nat × DwellEntry)
  inside : List Nat
  entries : List Nat
  exits : List Nat
deriving DecidableEq

/-- `_process_zones` restricted to one zone: detection loop, absent-person
loop, then the count/history/occupancy commit. -/
def processZone (cfg : CounterConfig) (z : ZoneData)
    (buffer : List (Nat × BufEntry)) (dwell : List (Nat × DwellEntry))
    (dets : List Detection) (activeIds : List Nat) (now : Rat) : ZoneOutcome :=
  let s1 := dets.foldl (zoneStep cfg z.top_left z.bottom_right now)
    ⟨buffer, dwell, [], [], []⟩
  let s2 := zoneAbsent cfg now activeIds s1
  let hist := z.history
    ++ s2.entries.map (fun pid => (⟨pid, .entered, now⟩ : HistEntry))
    ++ s2.exits.map (fun pid => (⟨pid, .exited, now⟩ : HistEntry))
  { zone := { z with
      in_count := z.in_count + s2.entries.length,
      out_count := z.out_count + s2.exits.length,
      inside_ids := s2.currentInside,
      history := trimHistory cfg hist },
    buffer := s2.buffer, dwell := s2.dwell, inside := s2.currentInside,
    entries := s2.entries, exits := s2.exits }

/-- One line's entry of `data[camera]["lines"]` (`endp` is the key
`"end"`). -/
structure LineData where
  start : Int × Int
  endp : Int × Int
  in_count : Nat
  out_count : Nat
  history : List HistEntry
deriving DecidableEq

/-- One per-person entry of `line_cross_tracker[camera][line]`. -/
structure LineTrack where
  position : Rat × Rat
  side : Int
  frames_on_side : Nat
  stable : Bool
deriving DecidableEq

/-- `_get_side_of_line`: sign of the z component of the cross product. -/
def getSideOfLine (p ls le : Rat × Rat) : Int :=
  let cross := (le.1 - ls.1) * (p.2 - ls.2) - (le.2 - ls.2) * (p.1 - ls.1)
  if cross > 0 then 1 else if cross < 0 then -1 else 0

/-- The state `_process_lines` threads for one line: the line's data, its
crossing tracker and its cooldown tracker. -/
structure LineProc where
  line : LineData
  tracker : List (Nat × LineTrack)
  cooldown : List (Nat × Rat)
deriving DecidableEq

/-- The side of a line's segment a point lies on. -/
def lineSide (ld : LineData) (p : Rat × Rat) : Int :=
  getSideOfLine p ((ld.start.1 : Rat), (ld.start.2 : Rat))
    ((ld.endp.1 : Rat), (ld.endp.2 : Rat))

/-- The proximity gate of `_process_lines`: the point lies within the
segment's bounding box expanded by the hardcoded 50px padding. -/
def nearLine (ld : LineData) (p : Rat × Rat) : Bool :=
  decide
    ((min ld.start.1 ld.endp.1 - 50 : Rat) ≤ p.1 ∧
     p.1 ≤ (max ld.start.1 ld.endp.1 + 50 : Rat) ∧
     (min ld.start.2 ld.endp.2 - 50 : Rat) ≤ p.2 ∧
     p.2 ≤ (max ld.start.2 ld.endp.2 + 50 : Rat))

/-- Squared displacement (`np.linalg.norm(p - q) < thr` ⟺
`dispSq p q < thr²`). -/
def dispSq (p q : Rat × Rat) : Rat :=
  (p.1 - q.1) ^ 2 + (p.2 - q.2) ^ 2

/-- The per-detection body of the main loop in `_process_lines`:
cooldown gate, proximity gate (fixed 50px padding), collinear skip, new
track, noise skip, side flip (crossing or reset), same side. -/
def lineStep (cfg : CounterConfig) (now : Rat) (s : LineProc) (d : Detection) :
    LineProc :=
  let pid := d.pid
  let p := getPersonPosition d
  if (alookup s.cooldown pid).isSome then s
  else
    if ¬ nearLine s.line p then { s with tracker := aerase s.tracker pid }
    else
      let side := lineSide s.line p
      if side = 0 then s
      else
        match alookup s.tracker pid with
        | none => { s with tracker := aset s.tracker pid ⟨p, side, 1, false⟩ }
        | some t =>
          if dispSq p t.position < cfg.min_movement_threshold ^ 2 ∧ t.stable then s
          else if side ≠ t.side then
            if t.stable then
              let action := if side > 0 then ActionType.lineIn else ActionType.lineOut
              let line :=
                if side > 0 then { s.line with in_count := s.line.in_count + 1 }
                else { s.line with out_count := s.line.out_count + 1 }
              let line := { line with
                history := trimHistory cfg (line.history ++ [⟨pid, action, now⟩]) }
              { line := line,
                tracker := aerase s.tracker pid,
                cooldown := aset s.cooldown pid (now + cfg.crossing_cooldown_seconds) }
            else
              { s with tracker := aset s.tracker pid ⟨p, side, 1, false⟩ }
          else
            let frames := t.frames_on_side + 1
            let stable :=
              if ¬ t.stable ∧ frames ≥ cfg.state_confirmation_frames then true
              else t.stable
            { s with tracker := aset s.tracker pid ⟨p, t.side, frames, stable⟩ }

/-- The inactive-track prune at the top of `_process_lines`. -/
def pruneTracker (s : LineProc) (activeIds : List Nat) : LineProc :=
  { s with tracker := s.tracker.filter fun e => decide (e.1 ∈ activeIds) }

/-- The expired-cooldown purge at the top of `_process_lines`
(entries with `now > end_time` are deleted). -/
def purgeCooldowns (s : LineProc) (now : Rat) : LineProc :=
  { s with cooldown := s.cooldown.filter fun e => ¬ decide (now > e.2) }

/-- `_process_lines` restricted to one line. -/
def processLine (cfg : CounterConfig) (s : LineProc) (dets : List Detection)
    (activeIds : List Nat) (now : Rat) : LineProc :=
  dets.foldl (lineStep cfg now) (purgeCooldowns (pruneTracker s activeIds) now)

/-- The `(entries, exits)` pair of person ids one zone produced in a frame. -/
abbrev ZoneEvents := List Nat × List Nat

/-- One camera's slice of the counter state: its `data[camera]` entry and
its slices of the per-camera tracking maps, plus `last_cleanup`. -/
structure CamState where
  zones : List (String × ZoneData)
  lines : List (String × LineData)
  insideZones : List (String × List Nat)
  stateBuffer : List (String × List (Nat × BufEntry))
  dwellTracker : List (String × List (Nat × DwellEntry))
  lineTracker : List (String × List (Nat × LineTrack))
  cooldownTracker : List (String × List (Nat × Rat))
  last_cleanup : Rat
deriving DecidableEq

/-- `_process_zones`: iterate the camera's zones in order, threading the
camera state and collecting each zone's confirmed entry/exit events. -/
def processZonesAux (cfg : CounterConfig) (dets : List Detection)
    (activeIds : List Nat) (now : Rat) :
    List (String × ZoneData) → CamState → List (String × ZoneEvents) →
    CamState × List (String × ZoneEvents)
  | [], s, evs => (s, evs)
  | (name, zd) :: rest, s, evs =>
    let out := processZone cfg zd (alookupD s.stateBuffer name)
      (alookupD s.dwellTracker name) dets activeIds now
    processZonesAux cfg dets activeIds now rest
      { s with zones := aset s.zones name out.zone,
               stateBuffer := aset s.stateBuffer name out.buffer,
               dwellTracker := aset s.dwellTracker name out.dwell,
               insideZones := aset s.insideZones name out.inside }
      (evs ++ [(name, (out.entries, out.exits))])

def processZones (cfg : CounterConfig) (st : CamState) (dets : List Detection)
    (activeIds : List Nat) (now : Rat) : CamState × List (String × ZoneEvents) :=
  processZonesAux cfg dets activeIds now st.zones st []

/-- `_process_lines`: iterate the camera's lines in order. -/
def processLinesAux (cfg : CounterConfig) (dets : List Detection)
    (activeIds : List Nat) (now : Rat) :
    List (String × LineData) → CamState → CamState
  | [], s => s
  | (name, ld) :: rest, s =>
    let lp := processLine cfg
      ⟨ld, alookupD s.lineTracker name, alookupD s.cooldownTracker name⟩
      dets activeIds now
    processLinesAux cfg dets activeIds now rest
      { s with lines := aset s.lines name lp.line,
               lineTracker := aset s.lineTracker name lp.tracker,
               cooldownTracker := aset s.cooldownTracker name lp.cooldown }

def processLinesAll (cfg : CounterConfig) (st : CamState) (dets : List Detection)
    (activeIds : List Nat) (now : Rat) : CamState :=
  processLinesAux cfg dets activeIds now st.lines st

/-- `_perform_cleanup` on one zone's state buffer: drop entries whose
`last_update` is more than `timedelta(minutes=30)` = 1800 seconds old. -/
def cleanupBuffer (now : Rat) (b : List (Nat × BufEntry)) : List (Nat × BufEntry) :=
  b.filter fun e => ¬ decide (now - e.2.last_update > 1800)

/-- `_perform_cleanup` on one zone's dwell tracker.  The source computes
`last_active = data.get('exit_time', data.get('last_seen'))`; since the
`exit_time` key always exists, `last_active` is the (possibly `None`)
exit time, and records with `exit_time=None` are never removed. -/
def cleanupDwell (now : Rat) (t : List (Nat × DwellEntry)) : List (Nat × DwellEntry) :=
  t.filter fun e =>
    match e.2.exit_time with
    | none => true
    | some et => ¬ decide (now - et > 1800)

/-- `_perform_cleanup` on one camera: sweeps state buffers and dwell
trackers; line trackers and cooldowns are not touched. -/
def performCleanup (st : CamState) (now : Rat) : CamState :=
  { st with
    stateBuffer := st.stateBuffer.map fun z => (z.1, cleanupBuffer now z.2),
    dwellTracker := st.dwellTracker.map fun z => (z.1, cleanupDwell now z.2) }

/-- `update_counts` for one (already initialized) camera: validate the
detections, process zones then lines, then run the time-gated cleanup. -/
def updateCounts (cfg : CounterConfig) (st : CamState) (dets : List Detection)
    (now : Rat) : CamState × List (String × ZoneEvents) :=
  let valid := dets.filter validPersonData
  let activeIds := valid.map Detection.pid
  let res := processZones cfg st valid activeIds now
  let st2 := processLinesAll cfg res.1 valid activeIds now
  let st3 :=
    if now - st.last_cleanup > (cfg.cleanup_interval_minutes : Rat) * 60 then
      { performCleanup st2 now with last_cleanup := now }
    else st2
  (st3, res.2)

/-- `_validate_coordinates`. -/
def validateCoordinates (cfg : CounterConfig) (tl br : Int × Int) : Bool :=
  if tl.1 ≥ br.1 ∨ tl.2 ≥ br.2 then false
  else if tl.1 < 0 ∨ tl.2 < 0 ∨ br.1 < 0 ∨ br.2 < 0 then false
  else if br.1 > cfg.frame_width ∨ br.2 > cfg.frame_height then false
  else true

/-- `_validate_line_coordinates` (`sqrt(dx²+dy²) ≥ 10` ⟺ `dx²+dy² ≥ 100`). -/
def validateLineCoordinates (cfg : CounterConfig) (s e : Int × Int) : Bool :=
  if s.1 < 0 ∨ s.2 < 0 ∨ e.1 < 0 ∨ e.2 < 0 then false
  else if max s.1 e.1 > cfg.frame_width ∨ max s.2 e.2 > cfg.frame_height then false
  else decide ((e.1 - s.1) ^ 2 + (e.2 - s.2) ^ 2 ≥ 100)

/-- The fresh zone entry `create_or_update_zone` writes. -/
def freshZone (tl br : Int × Int) : ZoneData := ⟨tl, br, 0, 0, [], []⟩

/-- The fresh line entry `create_or_update_line` writes. -/
def freshLine (s e : Int × Int) : LineData := ⟨s, e, 0, 0, []⟩

/-- `create_or_update_zone` on an existing camera: validate, reset the
zone's tracking slices, write a fresh zone entry. -/
def createOrUpdateZone (cfg : CounterConfig) (st : CamState) (zone : String)
    (tl br : Int × Int) : Bool × CamState :=
  if ¬ validateCoordinates cfg tl br then (false, st)
  else
    (true, { st with
      insideZones := aset st.insideZones zone [],
      stateBuffer := aset st.stateBuffer zone [],
      dwellTracker := aset st.dwellTracker zone [],
      zones := aset st.zones zone (freshZone tl br) })

/-- `_init_camera` on an existing camera: rebuild every tracking map with
an empty slice per configured zone and line. -/
def initCameraTracking (st : CamState) : CamState :=
  { st with
    insideZones := st.zones.map fun z => (z.1, []),
    stateBuffer := st.zones.map fun z => (z.1, []),
    dwellTracker := st.zones.map fun z => (z.1, []),
    lineTracker := st.lines.map fun l => (l.1, []),
    cooldownTracker := st.lines.map fun l => (l.1, []) }

/-- `create_or_update_line` on an existing camera: validate, write a fresh
line entry, then re-run `_init_camera`. -/
def createOrUpdateLine (cfg : CounterConfig) (st : CamState) (name : String)
    (ls le : Int × Int) : Bool × CamState :=
  if ¬ validateLineCoordinates cfg ls le then (false, st)
  else
    (true, initCameraTracking { st with lines := aset st.lines name (freshLine ls le) })

/-- `reset_zone_counts`. -/
def resetZoneCounts (st : CamState) (zone : String) : Bool × CamState :=
  match alookup st.zones zone with
  | none => (false, st)
  | some z =>
    (true, { st with
      zones := aset st.zones zone
        { z with in_count := 0, out_count := 0, history := [], inside_ids := [] },
      insideZones := amodify st.insideZones zone fun _ => [],
      stateBuffer := amodify st.stateBuffer zone fun _ => [],
      dwellTracker := amodify st.dwellTracker zone fun _ => [] })

/-- `reset_line_counts`. -/
def resetLineCounts (st : CamState) (name : String) : Bool × CamState :=
  match alookup st.lines name with
  | none => (false, st)
  | some l =>
    (true, { st with
      lines := aset st.lines name { l with in_count := 0, out_count := 0, history := [] },
      lineTracker := amodify st.lineTracker name fun _ => [],
      cooldownTracker := amodify st.cooldownTracker name fun _ => [] })

/-- Trace of `_update_dwell_tracker` calls for a single person in a single
zone: each step is a (debounced classification, time) pair. -/
def dwellRun (cfg : CounterConfig) :
    Option DwellEntry → List (Bool × Rat) → Option DwellEntry × List DwellResult
  | s, [] => (s, [])
  | s, (b, t) :: rest =>
    let r := updateDwellTracker cfg s b t
    let tail := dwellRun cfg r.1 rest
    (tail.1, r.2 :: tail.2)

/-- One step of the "never reaches `min_dwell_time` while stable-inside"
condition: when classified inside with a live record in the inside
phase, the dwell time is still below the threshold. -/
def dwellGuard (cfg : CounterConfig) (s : Option DwellEntry) (b : Bool)
    (t : Rat) : Bool :=
  match s, b with
  | some d, true =>
    if d.state = PState.inside then decide (t - d.entry_time < cfg.min_dwell_time)
    else true
  | _, _ => true

/-- "The dwell record never reaches `min_dwell_time` while stable-inside":
at every step classified inside, the live record's dwell time is still
below the threshold. -/
def neverReachesB (cfg : CounterConfig) :
    Option DwellEntry → List (Bool × Rat) → Bool
  | _, [] => true
  | s, (b, t) :: rest =>
    dwellGuard cfg s b t &&
    neverReachesB cfg (updateDwellTracker cfg s b t).1 rest

/-- Trace of `_update_state_buffer` calls for a single person in a single
zone. -/
def bufRun (cfg : CounterConfig) :
    Option BufEntry → List (Bool × Rat) → Option BufEntry × List Bool
  | s, [] => (s, [])
  | s, (b, t) :: rest =>
    let r := updateStateBuffer cfg s b t
    let tail := bufRun cfg (some r.1) rest
    (tail.1, r.2 :: tail.2)

/-- Lengths of the maximal constant runs of a boolean sequence
(auxiliary accumulator form). -/
def runsAux : Bool → Nat → List Bool → List Nat
  | _, n, [] => [n]
  | b, n, c :: rest => if c = b then runsAux b (n + 1) rest else n :: runsAux c 1 rest

/-- Lengths of the maximal constant runs of a boolean sequence. -/
def runs : List Bool → List Nat
  | [] => []
  | b :: rest => runsAux b 1 rest

/-- A buffer entry that is currently stable-inside. -/
def stableInsideB (cfg : CounterConfig) : Option BufEntry → Bool
  | none => false
  | some e => e.state && decide (cfg.min_dwell_frames ≤ e.count)

/-- A sequence of `_process_lines` frames for one line, with `active_ids`
derived from each frame's detections as in `update_counts`. -/
def runLineFrames (cfg : CounterConfig) (s : LineProc) :
    List (List Detection × Rat) → LineProc
  | [] => s
  | (dets, t) :: rest =>
    runLineFrames cfg (processLine cfg s dets (dets.map Detection.pid) t) rest

/-- A track marked stable has held its side for at least
`state_confirmation_frames` frames. -/
def trackInv (cfg : CounterConfig) (t : LineTrack) : Prop :=
  t.stable = true → cfg.state_confirmation_frames ≤ t.frames_on_side

section AListLemmas

variable {κ α : Type} [DecidableEq κ]

theorem alookup_aset_self (l : List (κ × α)) (k : κ) (v : α) :
    alookup (aset l k v) k = some v := by
  induction l with
  | nil => simp [aset, alookup]
  | cons e rest ih =>
    by_cases h : e.1 = k
    · simp [aset, h, alookup]
    · simp [aset, h, alookup, ih]

theorem alookup_aset_ne (l : List (κ × α)) (k k' : κ) (v : α) (h : k' ≠ k) :
    alookup (aset l k v) k' = alookup l k' := by
  have hk : ¬ (k = k') := fun hh => h hh.symm
  induction l with
  | nil => simp [aset, alookup, hk]
  | cons e rest ih =>
    rcases e with ⟨ek, ev⟩
    by_cases he : ek = k
    · subst he
      simp [aset, alookup, hk]
    · by_cases he' : ek = k'
      · simp [aset, he, alookup, he', h]
      · simp [aset, he, alookup, he', ih]

theorem alookup_aerase_ne (l : List (κ × α)) (k k' : κ) (h : k' ≠ k) :
    alookup (aerase l k) k' = alookup l k' := by
  have hk : ¬ (k = k') := fun hh => h hh.symm
  induction l with
  | nil => simp [aerase]
  | cons e rest ih =>
    rcases e with ⟨ek, ev⟩
    by_cases he : ek = k
    · subst he
      simp [aerase, alookup, hk]
    · simp [aerase, he, alookup, ih]

theorem alookup_append (l₁ l₂ : List (κ × α)) (k : κ) :
    alookup (l₁ ++ l₂) k =
      match alookup l₁ k with
      | some v => some v
      | none => alookup l₂ k := by
  induction l₁ with
  | nil => simp [alookup]
  | cons e rest ih =>
    by_cases he : e.1 = k
    · simp [alookup, he]
    · simp [alookup, he, ih]

theorem alookup_filter_of_pass (l : List (κ × α)) (k : κ) (v : α)
    (f : κ × α → Bool) (hl : alookup l k = some v) (hf : f (k, v) = true) :
    alookup (l.filter f) k = some v := by
  induction l with
  | nil => simp [alookup] at hl
  | cons e rest ih =>
    rcases e with ⟨ek, ev⟩
    by_cases he : ek = k
    · subst he
      simp [alookup] at hl
      subst hl
      simp [List.filter_cons, hf, alookup]
    · simp [alookup, he] at hl
      have hrest := ih hl
      cases hfe : f (ek, ev) <;>
        simp [List.filter_cons, hfe, alookup, he, hrest]

theorem alookup_eq_none_of_not_mem_keys (l : List (κ × α)) (k : κ)
    (h : k ∉ l.map Prod.fst) : alookup l k = none := by
  induction l with
  | nil => simp [alookup]
  | cons e rest ih =>
    simp only [List.map_cons, List.mem_cons] at h
    push_neg at h
    have hne : ¬ (e.1 = k) := fun hh => h.1 hh.symm
    simp [alookup, hne, ih h.2]

theorem alookup_filter_of_nodup (l : List (κ × α)) (k : κ)
    (f : κ × α → Bool) (hnd : (l.map Prod.fst).Nodup) :
    alookup (l.filter f) k =
      (alookup l k).bind fun v => if f (k, v) then some v else none := by
  induction l with
  | nil => simp [alookup]
  | cons e rest ih =>
    rcases e with ⟨ek, ev⟩
    simp only [List.map_cons, List.nodup_cons] at hnd
    by_cases he : ek = k
    · subst he
      cases hfe : f (ek, ev) with
      | true => simp [List.filter_cons, hfe, alookup]
      | false =>
        have hnone : alookup (rest.filter f) ek = none := by
          apply alookup_eq_none_of_not_mem_keys
          intro hmem
          apply hnd.1
          rcases List.mem_map.mp hmem with ⟨p, hp, hpk⟩
          exact List.mem_map.mpr ⟨p, List.mem_of_mem_filter hp, hpk⟩
        simp [List.filter_cons, hfe, alookup, hnone]
    · cases hfe : f (ek, ev) <;>
        simp [List.filter_cons, hfe, alookup, he, ih hnd.2]

theorem alookup_mem (l : List (κ × α)) (k : κ) (v : α) (h : alookup l k = some v) :
    (k, v) ∈ l := by
  induction l with
  | nil => simp [alookup] at h
  | cons e rest ih =>
    rcases e with ⟨ek, ev⟩
    by_cases he : ek = k
    · subst he
      simp [alookup] at h
      subst h
      exact List.mem_cons_self _ _
    · simp [alookup, he] at h
      exact List.mem_cons_of_mem _ (ih h)

theorem mem_aset (l : List (κ × α)) (k : κ) (v : α) (pr : κ × α)
    (h : pr ∈ aset l k v) : pr = (k, v) ∨ pr ∈ l := by
  induction l with
  | nil => simpa [aset] using h
  | cons e rest ih =>
    by_cases he : e.1 = k
    · simp only [aset, he, if_pos] at h
      rcases List.mem_cons.mp h with h | h
      · exact Or.inl h
      · exact Or.inr (List.mem_cons_of_mem _ h)
    · simp only [aset, he, if_neg, not_false_iff] at h
      rcases List.mem_cons.mp h with h | h
      · exact Or.inr (h ▸ List.mem_cons_self _ _)
      · rcases ih h with h | h
        · exact Or.inl h
        · exact Or.inr (List.mem_cons_of_mem _ h)

theorem mem_aerase (l : List (κ × α)) (k : κ) (pr : κ × α)
    (h : pr ∈ aerase l k) : pr ∈ l := by
  induction l with
  | nil => simpa [aerase] using h
  | cons e rest ih =>
    by_cases he : e.1 = k
    · simp only [aerase, he, if_pos] at h
      exact List.mem_cons_of_mem _ h
    · simp only [aerase, he, if_neg, not_false_iff] at h
      rcases List.mem_cons.mp h with h | h
      · exact h ▸ List.mem_cons_self _ _
      · exact List.mem_cons_of_mem _ (ih h)

theorem alookup_amodify_self (l : List (κ × α)) (k : κ) (f : α → α) :
    alookup (amodify l k f) k = (alookup l k).map f := by
  induction l with
  | nil => simp [amodify, alookup]
  | cons e rest ih =>
    rcases e with ⟨ek, ev⟩
    by_cases he : ek = k
    · have h1 : amodify ((ek, ev) :: rest) k f = (ek, f ev) :: amodify rest k f := by
        simp [amodify, he]
      rw [h1]
      simp [alookup, he]
    · have h1 : amodify ((ek, ev) :: rest) k f = (ek, ev) :: amodify rest k f := by
        simp [amodify, he]
      rw [h1]
      simp [alookup, he, ih]

theorem alookup_map_value {β : Type} (l : List (κ × α)) (k : κ) (g : α → β) :
    alookup (l.map fun z => (z.1, g z.2)) k = (alookup l k).map g := by
  induction l with
  | nil => simp [alookup]
  | cons e rest ih =>
    by_cases he : e.1 = k
    · simp [alookup, he]
    · simp [alookup, he, ih]

end AListLemmas

/-! ### C7: invalid geometry is rejected without mutating state -/

/-- C7.  For every `create_or_update_zone` call with invalid geometry
(`top_left` not componentwise strictly less than `bottom_right`, any
negative coordinate, or `bottom_right` outside frame bounds) and every
`create_or_update_line` call with invalid geometry (negative or
out-of-frame endpoint, or segment length < 10), the operation returns
`False` and no state is mutated. -/
theorem C7_invalid_geometry_rejected (cfg : CounterConfig) (st : CamState)
    (zname lname : String) (tl br ls le : Int × Int)
    (hz : ¬ (tl.1 < br.1 ∧ tl.2 < br.2) ∨
          tl.1 < 0 ∨ tl.2 < 0 ∨ br.1 < 0 ∨ br.2 < 0 ∨
          br.1 > cfg.frame_width ∨ br.2 > cfg.frame_height)
    (hl : ls.1 < 0 ∨ ls.2 < 0 ∨ le.1 < 0 ∨ le.2 < 0 ∨
          max ls.1 le.1 > cfg.frame_width ∨ max ls.2 le.2 > cfg.frame_height ∨
          (le.1 - ls.1) ^ 2 + (le.2 - ls.2) ^ 2 < 100) :
    createOrUpdateZone cfg st zname tl br = (false, st) ∧
    createOrUpdateLine cfg st lname ls le = (false, st) := by
  have hv : validateCoordinates cfg tl br = false := by
    unfold validateCoordinates
    split_ifs with h1 h2 h3
    · rfl
    · rfl
    · rfl
    · exfalso
      push_neg at h1 h2 h3
      rcases hz with h | h | h | h | h | h | h <;> omega
  have hvl : validateLineCoordinates cfg ls le = false := by
    unfold validateLineCoordinates
    split_ifs with h1 h2
    · rfl
    · rfl
    · push_neg at h1 h2
      rcases hl with h | h | h | h | h | h | h
      · omega
      · omega
      · omega
      · omega
      · omega
      · omega
      · simp only [decide_eq_false_iff_not]
        exact not_le.mpr h
  constructor
  · simp [createOrUpdateZone, hv]
  · simp [createOrUpdateLine, hvl]

def c7State : CamState :=
  { zones := [], lines := [], insideZones := [], stateBuffer := [],
    dwellTracker := [], lineTracker := [], cooldownTracker := [],
    last_cleanup := 0 }

/-- Witness for C7 at a concrete invalid zone (corners swapped) and a
concrete invalid line (length 3 < 10). -/
theorem C7_witness :
    createOrUpdateZone defaultConfig c7State "z" (10, 10) (5, 5) = (false, c7State) ∧
    createOrUpdateLine defaultConfig c7State "l" (0, 0) (3, 0) = (false, c7State) :=
  C7_invalid_geometry_rejected defaultConfig c7State "z" "l" (10, 10) (5, 5) (0, 0) (3, 0)
    (Or.inl (by decide)) (by right; right; right; right; right; right; decide)

/-! ### C8: reset zeroes counts and tracking but preserves geometry -/

/-- C8.  For every existing zone (resp. line), `reset_zone_counts`
(resp. `reset_line_counts`) returns `True`, sets `in_count` and
`out_count` to 0, empties history, clears all per-person tracking state
for it (debounce buffers and dwell records for the zone; line tracks and
cooldowns for the line), and leaves its geometry unchanged. -/
theorem C8_reset_clears_counts_preserves_geometry (st : CamState)
    (zname lname : String) (zd : ZoneData) (ld : LineData)
    (hz : alookup st.zones zname = some zd)
    (hl : alookup st.lines lname = some ld) :
    ((resetZoneCounts st zname).1 = true ∧
     alookup (resetZoneCounts st zname).2.zones zname =
       some { zd with in_count := 0, out_count := 0, history := [], inside_ids := [] } ∧
     alookupD (resetZoneCounts st zname).2.insideZones zname = [] ∧
     alookupD (resetZoneCounts st zname).2.stateBuffer zname = [] ∧
     alookupD (resetZoneCounts st zname).2.dwellTracker zname = []) ∧
    ((resetLineCounts st lname).1 = true ∧
     alookup (resetLineCounts st lname).2.lines lname =
       some { ld with in_count := 0, out_count := 0, history := [] } ∧
     alookupD (resetLineCounts st lname).2.lineTracker lname = [] ∧
     alookupD (resetLineCounts st lname).2.cooldownTracker lname = []) := by
  have hcl : ∀ {α : Type} (l : List (String × List α)) (k : String),
      alookupD (amodify l k fun _ => []) k = [] := by
    intro α l k
    unfold alookupD
    rw [alookup_amodify_self]
    cases alookup l k <;> simp
  constructor
  · refine ⟨?_, ?_, ?_, ?_, ?_⟩ <;>
      simp [resetZoneCounts, hz, alookup_aset_self, hcl]
  · refine ⟨?_, ?_, ?_, ?_⟩ <;>
      simp [resetLineCounts, hl, alookup_aset_self, hcl]

def c8State : CamState :=
  { zones := [("z", ⟨(0, 0), (100, 100), 7, 4, [3], [⟨3, .entered, 1⟩]⟩)],
    lines := [("l", ⟨(0, 0), (0, 100), 2, 5, [⟨9, .lineIn, 2⟩]⟩)],
    insideZones := [("z", [3])],
    stateBuffer := [("z", [(3, ⟨true, 5, 1⟩)])],
    dwellTracker := [("z", [(3, ⟨0, 1, true, none, .inside⟩)])],
    lineTracker := [("l", [(9, ⟨(1, 1), 1, 4, true⟩)])],
    cooldownTracker := [("l", [(9, 12)])],
    last_cleanup := 0 }

/-- Witness for C8 on a concrete populated store. -/
theorem C8_witness :
    (resetZoneCounts c8State "z").1 = true ∧
    alookup (resetZoneCounts c8State "z").2.zones "z" =
      some ⟨(0, 0), (100, 100), 0, 0, [], []⟩ ∧
    alookupD (resetZoneCounts c8State "z").2.stateBuffer "z" = [] ∧
    (resetLineCounts c8State "l").1 = true ∧
    alookup (resetLineCounts c8State "l").2.lines "l" =
      some ⟨(0, 0), (0, 100), 0, 0, []⟩ ∧
    alookupD (resetLineCounts c8State "l").2.lineTracker "l" = [] := by
  have h := C8_reset_clears_counts_preserves_geometry c8State "z" "l"
    ⟨(0, 0), (100, 100), 7, 4, [3], [⟨3, .entered, 1⟩]⟩
    ⟨(0, 0), (0, 100), 2, 5, [⟨9, .lineIn, 2⟩]⟩ rfl rfl
  exact ⟨h.1.1, h.1.2.1, h.1.2.2.2.1, h.2.1, h.2.2.1, h.2.2.2.1⟩

/-! ### C10: successful create-or-update on an existing name discards counts -/

/-- C10.  For every zone (resp. line) name that already exists, a
successful `create_or_update_zone` (resp. `create_or_update_line`) call
overwrites the entry with `in_count=0`, `out_count=0` and empty history,
discarding all previously accumulated counts and history. -/
theorem C10_create_or_update_overwrites_counts (cfg : CounterConfig)
    (st : CamState) (zname lname : String) (tl br ls le : Int × Int)
    (zd : ZoneData) (ld : LineData)
    (hzv : validateCoordinates cfg tl br = true)
    (hze : alookup st.zones zname = some zd)
    (hlv : validateLineCoordinates cfg ls le = true)
    (hle : alookup st.lines lname = some ld) :
    (createOrUpdateZone cfg st zname tl br).1 = true ∧
    alookup (createOrUpdateZone cfg st zname tl br).2.zones zname =
      some ⟨tl, br, 0, 0, [], []⟩ ∧
    (createOrUpdateLine cfg st lname ls le).1 = true ∧
    alookup (createOrUpdateLine cfg st lname ls le).2.lines lname =
      some ⟨ls, le, 0, 0, []⟩ := by
  refine ⟨?_, ?_, ?_, ?_⟩
  · simp [createOrUpdateZone, hzv]
  · simp [createOrUpdateZone, hzv, freshZone, alookup_aset_self]
  · simp [createOrUpdateLine, hlv]
  · simp [createOrUpdateLine, hlv, initCameraTracking, freshLine, alookup_aset_self]

/-- Witness for C10: overwriting the populated zone and line of a
concrete store resets their counts and history. -/
theorem C10_witness :
    (createOrUpdateZone defaultConfig c8State "z" (5, 5) (50, 50)).1 = true ∧
    alookup (createOrUpdateZone defaultConfig c8State "z" (5, 5) (50, 50)).2.zones "z" =
      some ⟨(5, 5), (50, 50), 0, 0, [], []⟩ ∧
    (createOrUpdateLine defaultConfig c8State "l" (10, 0) (10, 200)).1 = true ∧
    alookup (createOrUpdateLine defaultConfig c8State "l" (10, 0) (10, 200)).2.lines "l" =
      some ⟨(10, 0), (10, 200), 0, 0, []⟩ :=
  C10_create_or_update_overwrites_counts defaultConfig c8State "z" "l"
    (5, 5) (50, 50) (10, 0) (10, 200)
    ⟨(0, 0), (100, 100), 7, 4, [3], [⟨3, .entered, 1⟩]⟩
    ⟨(0, 0), (0, 100), 2, 5, [⟨9, .lineIn, 2⟩]⟩
    (by decide) rfl (by decide) rfl

/-! ### C9: the periodic cleanup sweep -/

def c9State : CamState :=
  { zones := [("z", ⟨(0, 0), (100, 100), 0, 0, [], []⟩)], lines := [],
    insideZones := [("z", [])],
    stateBuffer := [("z", [(1, ⟨true, 3, 0⟩)])],
    dwellTracker := [("z", [(1, ⟨0, 0, true, none, .inside⟩)])],
    lineTracker := [], cooldownTracker := [], last_cleanup := 0 }

/-- C9 counterexample.  The claim says the sweep removes debounce-buffer
entries more than 30 seconds stale and dwell entries several minutes
stale.  In the code the threshold is `timedelta(minutes=30)`: a buffer
entry 60 seconds stale survives, and a dwell record with
`exit_time=None` survives even when its `last_seen` is arbitrarily
stale. -/
theorem C9_counterexample :
    ((60 : Rat) - 0 > 30) ∧
    alookup (alookupD (performCleanup c9State 60).stateBuffer "z") 1 =
      some ⟨true, 3, 0⟩ ∧
    alookup (alookupD (performCleanup c9State 1000000).dwellTracker "z") 1 =
      some ⟨0, 0, true, none, .inside⟩ := by
  refine ⟨by norm_num, ?_, ?_⟩ <;>
    norm_num [performCleanup, c9State, alookupD, alookup, cleanupBuffer, cleanupDwell,
      List.filter_cons, List.filter_nil]

/-- C9 (amended).  Every cleanup sweep removes each debounce-buffer entry
whose `last_update` is more than 30 minutes (1800 s) stale and each
dwell entry whose `exit_time` is set and more than 30 minutes stale;
dwell entries with unset `exit_time` are kept, and line trackers and
cooldowns are not touched by the sweep. -/
theorem C9_amended_cleanup_thresholds (st : CamState) (now : Rat)
    (name : String) (pid : Nat)
    (b : List (Nat × BufEntry)) (dw : List (Nat × DwellEntry))
    (e : BufEntry) (de : DwellEntry)
    (hb : alookup st.stateBuffer name = some b) (hbn : (b.map Prod.fst).Nodup)
    (he : alookup b pid = some e)
    (hd : alookup st.dwellTracker name = some dw) (hdn : (dw.map Prod.fst).Nodup)
    (hde : alookup dw pid = some de) :
    alookup (performCleanup st now).stateBuffer name = some (cleanupBuffer now b) ∧
    alookup (cleanupBuffer now b) pid =
      (if now - e.last_update > 1800 then none else some e) ∧
    alookup (performCleanup st now).dwellTracker name = some (cleanupDwell now dw) ∧
    alookup (cleanupDwell now dw) pid =
      (match de.exit_time with
       | none => some de
       | some et => if now - et > 1800 then none else some de) ∧
    (performCleanup st now).lineTracker = st.lineTracker ∧
    (performCleanup st now).cooldownTracker = st.cooldownTracker := by
  refine ⟨?_, ?_, ?_, ?_, rfl, rfl⟩
  · unfold performCleanup
    rw [alookup_map_value, hb]
    rfl
  · unfold cleanupBuffer
    rw [alookup_filter_of_nodup _ _ _ hbn, he]
    by_cases hc : now - e.last_update > 1800 <;> simp [hc] <;> linarith
  · unfold performCleanup
    rw [alookup_map_value, hd]
    rfl
  · unfold cleanupDwell
    rw [alookup_filter_of_nodup _ _ _ hdn, hde]
    cases het : de.exit_time with
    | none => simp [het]
    | some et => by_cases hc : now - et > 1800 <;> simp [het, hc] <;> linarith

/-- Witness for C9's amended statement on a concrete store. -/
theorem C9_witness :
    alookup (performCleanup c9State 60).stateBuffer "z" =
      some (cleanupBuffer 60 [(1, ⟨true, 3, 0⟩)]) ∧
    alookup (cleanupBuffer 60 [(1, ⟨true, 3, 0⟩)]) 1 =
      (if (60 : Rat) - (⟨true, 3, 0⟩ : BufEntry).last_update > 1800 then none
       else some ⟨true, 3, 0⟩) ∧
    alookup (performCleanup c9State 60).dwellTracker "z" =
      some (cleanupDwell 60 [(1, ⟨0, 0, true, none, .inside⟩)]) ∧
    alookup (cleanupDwell 60 [(1, ⟨0, 0, true, none, .inside⟩)]) 1 =
      (match (⟨0, 0, true, none, .inside⟩ : DwellEntry).exit_time with
       | none => some (⟨0, 0, true, none, .inside⟩ : DwellEntry)
       | some et => if (60 : Rat) - et > 1800 then none
                    else some (⟨0, 0, true, none, .inside⟩ : DwellEntry)) ∧
    (performCleanup c9State 60).lineTracker = c9State.lineTracker ∧
    (performCleanup c9State 60).cooldownTracker = c9State.cooldownTracker :=
  C9_amended_cleanup_thresholds c9State 60 "z" 1 _ _ _ _
    rfl (by decide) rfl rfl (by decide) rfl

/-! ### C5: the debounce buffer -/

theorem runsAux_head (l : List Bool) (b : Bool) (n : Nat) :
    ∃ m t, runsAux b n l = m :: t ∧ n ≤ m := by
  induction l generalizing b n with
  | nil => exact ⟨n, [], rfl, Nat.le_refl n⟩
  | cons c rest ih =>
    by_cases hc : c = b
    · rcases ih b (n + 1) with ⟨m, t, heq, hle⟩
      exact ⟨m, t, by simp [runsAux, hc, heq], Nat.le_trans (Nat.le_succ n) hle⟩
    · exact ⟨n, runsAux c 1 rest, by simp [runsAux, hc], Nat.le_refl n⟩

theorem bufRun_not_stable_aux (cfg : CounterConfig) :
    ∀ (steps : List (Bool × Rat)) (b : Bool) (n : Nat) (t : Rat),
      (∀ r ∈ runsAux b n (steps.map Prod.fst), r < cfg.min_dwell_frames) →
      ∀ out ∈ (bufRun cfg (some ⟨b, n, t⟩) steps).2, out = false := by
  intro steps
  induction steps with
  | nil =>
    intro b n t _ out hout
    simp [bufRun] at hout
  | cons step rest ih =>
    intro b n t h out hout
    rcases step with ⟨c, tc⟩
    by_cases hc : c = b
    · subst hc
      have hu : updateStateBuffer cfg (some ⟨c, n, t⟩) c tc =
          (⟨c, n + 1, tc⟩, decide (n + 1 ≥ cfg.min_dwell_frames)) := by
        simp [updateStateBuffer]
      have hrun : ∀ r ∈ runsAux c (n + 1) (rest.map Prod.fst),
          r < cfg.min_dwell_frames := by
        intro r hr
        apply h
        simpa [runsAux] using hr
      have hout' : out ∈ decide (n + 1 ≥ cfg.min_dwell_frames) ::
          (bufRun cfg (some ⟨c, n + 1, tc⟩) rest).2 := by
        simpa [bufRun, hu] using hout
      rcases List.mem_cons.mp hout' with h1 | h1
      · subst h1
        rcases runsAux_head (rest.map Prod.fst) c (n + 1) with ⟨m, tt, heq, hle⟩
        have hm : m < cfg.min_dwell_frames := hrun m (by simp [heq])
        simp only [decide_eq_false_iff_not]
        omega
      · exact ih c (n + 1) tc hrun out h1
    · have hu : updateStateBuffer cfg (some ⟨b, n, t⟩) c tc =
          (⟨c, 1, tc⟩, false) := by
        simp [updateStateBuffer, hc, Ne.symm (Ne.intro hc)]
      have hrun : ∀ r ∈ runsAux c 1 (rest.map Prod.fst),
          r < cfg.min_dwell_frames := by
        intro r hr
        apply h
        simp [runsAux, hc]
        exact Or.inr hr
      have hout' : out ∈ false :: (bufRun cfg (some ⟨c, 1, tc⟩) rest).2 := by
        simpa [bufRun, hu] using hout
      rcases List.mem_cons.mp hout' with h1 | h1
      · exact h1
      · exact ih c 1 tc hrun out h1

theorem bufRun_flicker (cfg : CounterConfig) (steps : List (Bool × Rat))
    (h : ∀ r ∈ runs (steps.map Prod.fst), r < cfg.min_dwell_frames) :
    ∀ out ∈ (bufRun cfg none steps).2, out = false := by
  cases steps with
  | nil => intro out hout; simp [bufRun] at hout
  | cons step rest =>
    rcases step with ⟨c, tc⟩
    intro out hout
    have hout' : out ∈ false :: (bufRun cfg (some ⟨c, 1, tc⟩) rest).2 := by
      simpa [bufRun, updateStateBuffer] using hout
    rcases List.mem_cons.mp hout' with h1 | h1
    · exact h1
    · exact bufRun_not_stable_aux cfg rest c 1 tc
        (by intro r hr; apply h; simpa [runs, runsAux] using hr) out h1

/-- C5.  The debounce buffer update: a differing classification resets the
buffer to the new classification with count 1 and is not stable; a
matching classification increments the count and is reported stable
exactly when the count reaches `min_dwell_frames` (for any configuration
with `min_dwell_frames ≥ 2`, the returned flag is true iff the stored
count is ≥ `min_dwell_frames`); a person whose classification stream has
every constant run shorter than `min_dwell_frames` never produces a
stable classification. -/
theorem C5_debounce_buffer (cfg : CounterConfig) (now : Rat) (b : Bool) :
    (updateStateBuffer cfg none b now = (⟨b, 1, now⟩, false)) ∧
    (∀ d : BufEntry, d.state ≠ b →
       updateStateBuffer cfg (some d) b now = (⟨b, 1, now⟩, false)) ∧
    (∀ d : BufEntry, d.state = b →
       updateStateBuffer cfg (some d) b now =
         (⟨d.state, d.count + 1, now⟩,
          decide (cfg.min_dwell_frames ≤ d.count + 1))) ∧
    (2 ≤ cfg.min_dwell_frames →
       ∀ s : Option BufEntry,
         ((updateStateBuffer cfg s b now).2 = true ↔
          cfg.min_dwell_frames ≤ (updateStateBuffer cfg s b now).1.count)) ∧
    (∀ steps : List (Bool × Rat),
       (∀ r ∈ runs (steps.map Prod.fst), r < cfg.min_dwell_frames) →
       ∀ out ∈ (bufRun cfg none steps).2, out = false) := by
  refine ⟨rfl, ?_, ?_, ?_, fun steps h => bufRun_flicker cfg steps h⟩
  · intro d hd
    simp [updateStateBuffer, hd]
  · intro d hd
    simp [updateStateBuffer, hd]
  · intro h2 s
    match s with
    | none =>
      simp only [updateStateBuffer]
      constructor
      · intro h; cases h
      · intro h; omega
    | some d =>
      by_cases hd : d.state = b
      · simp [updateStateBuffer, hd, ge_iff_le]
      · simp only [updateStateBuffer, if_pos (by simpa using hd)]
        constructor
        · intro h; cases h
        · intro h; omega

/-- Witness for C5 with the default configuration: fresh entry, reset on
mismatch, increment on match, exactly-when stability, and a concretely
flickering stream that never stabilizes. -/
theorem C5_witness :
    updateStateBuffer defaultConfig none true 0 = (⟨true, 1, 0⟩, false) ∧
    updateStateBuffer defaultConfig (some ⟨false, 2, 0⟩) true 0 = (⟨true, 1, 0⟩, false) ∧
    updateStateBuffer defaultConfig (some ⟨true, 2, 0⟩) true 0 =
      (⟨true, 3, 0⟩, decide (defaultConfig.min_dwell_frames ≤ 3)) ∧
    ((updateStateBuffer defaultConfig (some ⟨true, 2, 0⟩) true 0).2 = true ↔
      defaultConfig.min_dwell_frames ≤
        (updateStateBuffer defaultConfig (some ⟨true, 2, 0⟩) true 0).1.count) ∧
    (∀ out ∈ (bufRun defaultConfig none
        [(true, 0), (false, 1), (true, 2), (false, 3)]).2, out = false) := by
  have h := C5_debounce_buffer defaultConfig 0 true
  exact ⟨h.1, h.2.1 ⟨false, 2, 0⟩ (by decide), h.2.2.1 ⟨true, 2, 0⟩ rfl,
    h.2.2.2.1 (by decide) (some ⟨true, 2, 0⟩),
    h.2.2.2.2 [(true, 0), (false, 1), (true, 2), (false, 3)] (by decide)⟩

/-! ### C2: a never-qualified person emits no entry and no exit event -/

theorem dwell_step_uncounted (cfg : CounterConfig) (s : Option DwellEntry)
    (b : Bool) (t : Rat)
    (hs : ∀ d, s = some d → d.counted = false)
    (hnr : dwellGuard cfg s b t = true) :
    (updateDwellTracker cfg s b t).2.should_count = false ∧
    (updateDwellTracker cfg s b t).2.action ≠ DwellAction.qualifiedEntry ∧
    (∀ d, (updateDwellTracker cfg s b t).1 = some d → d.counted = false) := by
  rcases s with _ | e
  · cases b <;> simp [updateDwellTracker]
  · have hce : e.counted = false := hs e rfl
    cases b with
    | true =>
      by_cases hst : e.state = PState.exiting
      · simp [updateDwellTracker, hst, hce]
      · have hsi : e.state = PState.inside := by
          cases hh : e.state
          · rfl
          · exact absurd hh hst
        have hnr' : (if e.state = PState.inside then
            decide (t - e.entry_time < cfg.min_dwell_time) else true) = true := hnr
        rw [if_pos hsi] at hnr'
        have hlt : t - e.entry_time < cfg.min_dwell_time := of_decide_eq_true hnr'
        have hnge : ¬ (cfg.min_dwell_time ≤ t - e.entry_time) := not_le.mpr hlt
        simp [updateDwellTracker, hst, hce, hnge]
    | false =>
      by_cases hst : e.state = PState.inside
      · simp [updateDwellTracker, hst, hce]
      · cases het : e.exit_time with
        | none => simp [updateDwellTracker, hst, het, hce]
        | some et =>
          by_cases hg : t - et ≥ cfg.exit_grace_time
          · simp [updateDwellTracker, hst, het, hg, hce]
          · simp [updateDwellTracker, hst, het, hg, hce]

theorem dwell_run_uncounted (cfg : CounterConfig) :
    ∀ (steps : List (Bool × Rat)) (s : Option DwellEntry),
      (∀ d, s = some d → d.counted = false) →
      neverReachesB cfg s steps = true →
      (∀ r ∈ (dwellRun cfg s steps).2,
         r.should_count = false ∧ r.action ≠ DwellAction.qualifiedEntry) ∧
      (∀ d, (dwellRun cfg s steps).1 = some d → d.counted = false) := by
  intro steps
  induction steps with
  | nil =>
    intro s hs _
    exact ⟨by simp [dwellRun], by simpa [dwellRun] using hs⟩
  | cons step rest ih =>
    intro s hs h
    rcases step with ⟨b, t⟩
    simp only [neverReachesB, Bool.and_eq_true] at h
    have hstep := dwell_step_uncounted cfg s b t hs h.1
    have hrest := ih (updateDwellTracker cfg s b t).1 hstep.2.2 h.2
    constructor
    · intro r hr
      simp only [dwellRun] at hr
      rcases List.mem_cons.mp hr with hr | hr
      · exact hr ▸ ⟨hstep.1, hstep.2.1⟩
      · exact hrest.1 r hr
    · intro d hd
      simp only [dwellRun] at hd
      exact hrest.2 d hd

theorem dwell_confirmedExit_deletes (cfg : CounterConfig) (s : Option DwellEntry)
    (b : Bool) (t : Rat)
    (h : (updateDwellTracker cfg s b t).2.action = DwellAction.confirmedExit) :
    (updateDwellTracker cfg s b t).1 = none := by
  rcases s with _ | e
  · cases b <;> simp [updateDwellTracker] at h
  · cases b with
    | true =>
      by_cases hst : e.state = PState.exiting
      · simp [updateDwellTracker, hst] at h
      · simp [updateDwellTracker, hst] at h
        split at h <;> simp at h
    | false =>
      by_cases hst : e.state = PState.inside
      · simp [updateDwellTracker, hst] at h
      · cases het : e.exit_time with
        | none => simp [updateDwellTracker, hst, het] at h
        | some et =>
          by_cases hg : t - et ≥ cfg.exit_grace_time
          · simp [updateDwellTracker, hst, het, hg]
          · simp [updateDwellTracker, hst, het, hg] at h

theorem zoneStep_no_count_no_events (cfg : CounterConfig) (tl br : Int × Int)
    (t : Rat) (zs : ZoneProc) (d : Detection)
    (h : (updateDwellTracker cfg (alookup zs.dwell d.pid)
        (isInZone cfg (getPersonPosition d) tl br) t).2.should_count = false) :
    (zoneStep cfg tl br t zs d).entries = zs.entries ∧
    (zoneStep cfg tl br t zs d).exits = zs.exits := by
  unfold zoneStep
  cases hb : (updateStateBuffer cfg (alookup zs.buffer d.pid)
      (isInZone cfg (getPersonPosition d) tl br) t).2 <;>
    simp [hb, h]

/-- C2.  A person whose dwell record never reaches `min_dwell_time` while
stable-inside keeps `counted = false`, every dwell result along the trace
has `should_count = false` and is never a qualified entry (so the person
appears in no `entries_to_count`/`exits_to_count` list, hence zero entry
and zero exit events), and a confirmed exit — which is how the trace ends
after the person leaves — still deletes the dwell record. -/
theorem C2_never_qualified_no_events (cfg : CounterConfig)
    (steps : List (Bool × Rat))
    (h : neverReachesB cfg none steps = true) :
    (∀ r ∈ (dwellRun cfg none steps).2,
       r.should_count = false ∧ r.action ≠ DwellAction.qualifiedEntry) ∧
    (∀ d, (dwellRun cfg none steps).1 = some d → d.counted = false) ∧
    (∀ (s : Option DwellEntry) (b : Bool) (t : Rat),
       (updateDwellTracker cfg s b t).2.action = DwellAction.confirmedExit →
       (updateDwellTracker cfg s b t).1 = none) ∧
    (∀ (tl br : Int × Int) (t : Rat) (zs : ZoneProc) (d : Detection),
       (updateDwellTracker cfg (alookup zs.dwell d.pid)
          (isInZone cfg (getPersonPosition d) tl br) t).2.should_count = false →
       (zoneStep cfg tl br t zs d).entries = zs.entries ∧
       (zoneStep cfg tl br t zs d).exits = zs.exits) := by
  have hrun := dwell_run_uncounted cfg steps none (by intro d hd; cases hd) h
  exact ⟨hrun.1, hrun.2,
    fun s b t hc => dwell_confirmedExit_deletes cfg s b t hc,
    fun tl br t zs d hsc => zoneStep_no_count_no_events cfg tl br t zs d hsc⟩

/-- Witness for C2: a person stable-inside for 0.5 s (below the 1 s
dwell threshold), then stable-outside until the exit is confirmed. -/
theorem C2_witness :
    (∀ r ∈ (dwellRun defaultConfig none
        [(true, 0), (true, 1/2), (false, 1), (false, 3)]).2,
       r.should_count = false ∧ r.action ≠ DwellAction.qualifiedEntry) ∧
    (∀ d, (dwellRun defaultConfig none
        [(true, 0), (true, 1/2), (false, 1), (false, 3)]).1 = some d →
       d.counted = false) ∧
    (∀ (s : Option DwellEntry) (b : Bool) (t : Rat),
       (updateDwellTracker defaultConfig s b t).2.action = DwellAction.confirmedExit →
       (updateDwellTracker defaultConfig s b t).1 = none) ∧
    (∀ (tl br : Int × Int) (t : Rat) (zs : ZoneProc) (d : Detection),
       (updateDwellTracker defaultConfig (alookup zs.dwell d.pid)
          (isInZone defaultConfig (getPersonPosition d) tl br) t).2.should_count = false →
       (zoneStep defaultConfig tl br t zs d).entries = zs.entries ∧
       (zoneStep defaultConfig tl br t zs d).exits = zs.exits) :=
  C2_never_qualified_no_events defaultConfig
    [(true, 0), (true, 1/2), (false, 1), (false, 3)]
    (by norm_num [neverReachesB, dwellGuard, updateDwellTracker, defaultConfig])

/-! ### C3: side flips, the noise gate, and crossing confirmation -/

theorem alookup_aerase_self {κ α : Type} [DecidableEq κ] (l : List (κ × α))
    (k : κ) (hnd : (l.map Prod.fst).Nodup) : alookup (aerase l k) k = none := by
  induction l with
  | nil => simp [aerase, alookup]
  | cons e rest ih =>
    simp only [List.map_cons, List.nodup_cons] at hnd
    by_cases he : e.1 = k
    · rcases e with ⟨ek, ev⟩
      simp only at he
      subst he
      simp only [aerase, if_pos rfl]
      exact alookup_eq_none_of_not_mem_keys rest ek hnd.1
    · rcases e with ⟨ek, ev⟩
      simp only at he
      simp [aerase, he, alookup, ih hnd.2]

def c3State : LineProc :=
  { line := ⟨(320, 0), (320, 480), 0, 0, []⟩,
    tracker := [(2, ⟨(318, 100), 1, 3, true⟩)],
    cooldown := [] }

/-- C3 counterexample.  Person 2's track is stable on side +1 with 3
frames; at (322,100) the side flips to −1, but the displacement (4 px)
is below `min_movement_threshold` (5 px), so the stable-noise gate skips
the frame entirely: no counter is incremented, no history entry is
appended, no cooldown starts, and the track is not deleted — refuting
the claim that every side flip of a stable track counts a crossing. -/
theorem C3_counterexample :
    lineSide c3State.line (getPersonPosition (.pt 2 322 100)) = -1 ∧
    alookup c3State.tracker 2 = some ⟨(318, 100), 1, 3, true⟩ ∧
    (⟨(318, 100), 1, 3, true⟩ : LineTrack).stable = true ∧
    lineStep defaultConfig 0 c3State (.pt 2 322 100) = c3State := by
  refine ⟨?_, rfl, rfl, ?_⟩
  · norm_num [lineSide, getSideOfLine, getPersonPosition, c3State]
  · norm_num [lineStep, nearLine, lineSide, getSideOfLine, getPersonPosition,
      dispSq, alookup, Detection.pid, defaultConfig, c3State]

theorem lineStep_trackInv (cfg : CounterConfig) (now : Rat) (s : LineProc)
    (d : Detection) (hall : ∀ pr ∈ s.tracker, trackInv cfg pr.2) :
    ∀ pr ∈ (lineStep cfg now s d).tracker, trackInv cfg pr.2 := by
  intro pr hpr
  by_cases h1 : (alookup s.cooldown d.pid).isSome
  · simp [lineStep, h1] at hpr
    exact hall pr hpr
  · by_cases h2 : nearLine s.line (getPersonPosition d)
    · by_cases h3 : lineSide s.line (getPersonPosition d) = 0
      · simp [lineStep, h1, h2, h3] at hpr
        exact hall pr hpr
      · cases ht : alookup s.tracker d.pid with
        | none =>
          simp [lineStep, h1, h2, h3, ht] at hpr
          rcases mem_aset _ _ _ _ hpr with h | h
          · subst h
            intro hst
            simp at hst
          · exact hall pr h
        | some t =>
          by_cases h6 : t.stable = true
          · by_cases h4 : dispSq (getPersonPosition d) t.position <
                cfg.min_movement_threshold ^ 2
            · simp [lineStep, h1, h2, h3, ht, h4, h6] at hpr
              exact hall pr hpr
            · by_cases h5 : lineSide s.line (getPersonPosition d) ≠ t.side
              · simp [lineStep, h1, h2, h3, ht, h4, h5, h6] at hpr
                exact hall pr (mem_aerase _ _ _ hpr)
              · have h5' : lineSide s.line (getPersonPosition d) = t.side :=
                  not_ne_iff.mp h5
                have h3' : ¬ (t.side = 0) := by rw [← h5']; exact h3
                simp [lineStep, h1, h2, h3', ht, h4, h5'] at hpr
                rcases mem_aset _ _ _ _ hpr with h | h
                · subst h
                  intro _
                  have := hall (d.pid, t) (alookup_mem _ _ _ ht) h6
                  exact Nat.le_trans this (Nat.le_succ _)
                · exact hall pr h
          · by_cases h5 : lineSide s.line (getPersonPosition d) ≠ t.side
            · simp [lineStep, h1, h2, h3, ht, h5, h6] at hpr
              rcases mem_aset _ _ _ _ hpr with h | h
              · subst h
                intro hst
                simp at hst
              · exact hall pr h
            · have h5' : lineSide s.line (getPersonPosition d) = t.side :=
                not_ne_iff.mp h5
              have h3' : ¬ (t.side = 0) := by rw [← h5']; exact h3
              simp [lineStep, h1, h2, h3', ht, h5', h6] at hpr
              rcases mem_aset _ _ _ _ hpr with h | h
              · subst h
                intro hst
                simp [h6] at hst
                exact hst
              · exact hall pr h
    · simp [lineStep, h1, h2] at hpr
      exact hall pr (mem_aerase _ _ _ hpr)

theorem lineStep_counts_need_stable (cfg : CounterConfig) (now : Rat)
    (s : LineProc) (d : Detection)
    (h : (lineStep cfg now s d).line.in_count + (lineStep cfg now s d).line.out_count ≠
       s.line.in_count + s.line.out_count) :
    ∃ t, alookup s.tracker d.pid = some t ∧ t.stable = true := by
  by_cases h1 : (alookup s.cooldown d.pid).isSome
  · simp [lineStep, h1] at h
  · by_cases h2 : nearLine s.line (getPersonPosition d)
    · by_cases h3 : lineSide s.line (getPersonPosition d) = 0
      · simp [lineStep, h1, h2, h3] at h
      · cases ht : alookup s.tracker d.pid with
        | none => simp [lineStep, h1, h2, h3, ht] at h
        | some t =>
          by_cases h6 : t.stable = true
          · by_cases h5 : lineSide s.line (getPersonPosition d) ≠ t.side
            · exact ⟨t, rfl, h6⟩
            · have h5' : lineSide s.line (getPersonPosition d) = t.side :=
                not_ne_iff.mp h5
              have h3' : ¬ (t.side = 0) := by rw [← h5']; exact h3
              by_cases h4 : dispSq (getPersonPosition d) t.position <
                  cfg.min_movement_threshold ^ 2
              · simp [lineStep, h1, h2, h3, ht, h4, h6] at h
              · simp [lineStep, h1, h2, h3', ht, h4, h5'] at h
          · by_cases h5 : lineSide s.line (getPersonPosition d) ≠ t.side
            · simp [lineStep, h1, h2, h3, ht, h5, h6] at h
            · have h5' : lineSide s.line (getPersonPosition d) = t.side :=
                not_ne_iff.mp h5
              have h3' : ¬ (t.side = 0) := by rw [← h5']; exact h3
              simp [lineStep, h1, h2, h3', ht, h5', h6] at h
    · simp [lineStep, h1, h2] at h

/-- C3 (amended).  A side flip of a tracked person that passes the gates
(not in cooldown, near the line, non-collinear) and is *not* skipped by
the stable-noise gate (displacement below `min_movement_threshold` while
stable): if the track was stable it increments exactly the counter of
the new side, appends one history entry, starts a cooldown of
`crossing_cooldown_seconds`, and deletes the track; if the track was not
yet stable it resets the track to the new side with `frames_on_side=1`,
`stable=false`, and changes no counter.  Stability requires
`state_confirmation_frames` frames on a side, and a frame can change the
counters only when the person's pre-existing track is stable, so no
crossing is counted before `state_confirmation_frames` stable frames. -/
theorem C3_amended_side_flip (cfg : CounterConfig) (now : Rat) (s : LineProc)
    (d : Detection) (t : LineTrack)
    (hnd : (s.tracker.map Prod.fst).Nodup)
    (hcd : alookup s.cooldown d.pid = none)
    (hnear : nearLine s.line (getPersonPosition d) = true)
    (hside : lineSide s.line (getPersonPosition d) ≠ 0)
    (ht : alookup s.tracker d.pid = some t)
    (hflip : lineSide s.line (getPersonPosition d) ≠ t.side)
    (hmove : ¬ (dispSq (getPersonPosition d) t.position <
        cfg.min_movement_threshold ^ 2 ∧ t.stable = true)) :
    (t.stable = true →
       (0 < lineSide s.line (getPersonPosition d) →
          (lineStep cfg now s d).line.in_count = s.line.in_count + 1 ∧
          (lineStep cfg now s d).line.out_count = s.line.out_count ∧
          (lineStep cfg now s d).line.history =
            trimHistory cfg (s.line.history ++ [⟨d.pid, ActionType.lineIn, now⟩])) ∧
       (lineSide s.line (getPersonPosition d) < 0 →
          (lineStep cfg now s d).line.out_count = s.line.out_count + 1 ∧
          (lineStep cfg now s d).line.in_count = s.line.in_count ∧
          (lineStep cfg now s d).line.history =
            trimHistory cfg (s.line.history ++ [⟨d.pid, ActionType.lineOut, now⟩])) ∧
       alookup (lineStep cfg now s d).cooldown d.pid =
         some (now + cfg.crossing_cooldown_seconds) ∧
       alookup (lineStep cfg now s d).tracker d.pid = none) ∧
    (t.stable = false →
       lineStep cfg now s d =
         { s with tracker := (aset s.tracker d.pid
             ⟨getPersonPosition d, lineSide s.line (getPersonPosition d), 1, false⟩) }) ∧
    (∀ (s' : LineProc) (d' : Detection),
       (∀ pr ∈ s'.tracker, trackInv cfg pr.2) →
       ∀ pr ∈ (lineStep cfg now s' d').tracker, trackInv cfg pr.2) ∧
    (∀ (s' : LineProc) (d' : Detection),
       (lineStep cfg now s' d').line.in_count + (lineStep cfg now s' d').line.out_count ≠
         s'.line.in_count + s'.line.out_count →
       ∃ t', alookup s'.tracker d'.pid = some t' ∧ t'.stable = true) := by
  have h1 : ¬ (alookup s.cooldown d.pid).isSome = true := by simp [hcd]
  refine ⟨?_, ?_, fun s' d' hall => lineStep_trackInv cfg now s' d' hall,
    fun s' d' hne => lineStep_counts_need_stable cfg now s' d' hne⟩
  · intro hstable
    have hm : ¬ (dispSq (getPersonPosition d) t.position <
        cfg.min_movement_threshold ^ 2) := fun hd => hmove ⟨hd, hstable⟩
    rcases lt_trichotomy (lineSide s.line (getPersonPosition d)) 0 with hlt | h0 | hgt
    · have hnpos : ¬ (0 < lineSide s.line (getPersonPosition d)) := by omega
      refine ⟨fun hc => absurd hc hnpos, fun _ => ⟨?_, ?_, ?_⟩, ?_, ?_⟩ <;>
        simp [lineStep, h1, hnear, hside, ht, hm, hflip, hstable, hnpos,
          alookup_aset_self, alookup_aerase_self s.tracker d.pid hnd]
    · exact absurd h0 hside
    · have hnneg : ¬ (lineSide s.line (getPersonPosition d) < 0) := by omega
      refine ⟨fun _ => ⟨?_, ?_, ?_⟩, fun hc => absurd hc hnneg, ?_, ?_⟩ <;>
        simp [lineStep, h1, hnear, hside, ht, hm, hflip, hstable, hgt,
          alookup_aset_self, alookup_aerase_self s.tracker d.pid hnd]
  · intro hstable
    simp [lineStep, h1, hnear, hside, ht, hflip, hstable]

def c3WState : LineProc :=
  { line := ⟨(320, 0), (320, 480), 0, 0, []⟩,
    tracker := [(7, ⟨(300, 100), 1, 3, true⟩)],
    cooldown := [] }

/-- Witness for C3's amended statement: a stable track that flips side
with a 40 px displacement counts exactly one crossing. -/
theorem C3_witness :
    (lineStep defaultConfig 5 c3WState (.pt 7 340 100)).line.out_count =
      c3WState.line.out_count + 1 ∧
    (lineStep defaultConfig 5 c3WState (.pt 7 340 100)).line.in_count =
      c3WState.line.in_count ∧
    alookup (lineStep defaultConfig 5 c3WState (.pt 7 340 100)).cooldown 7 =
      some (5 + defaultConfig.crossing_cooldown_seconds) ∧
    alookup (lineStep defaultConfig 5 c3WState (.pt 7 340 100)).tracker 7 = none := by
  have h := C3_amended_side_flip defaultConfig 5 c3WState (.pt 7 340 100)
    ⟨(300, 100), 1, 3, true⟩ (by decide) rfl
    (by norm_num [nearLine, getPersonPosition, c3WState])
    (by norm_num [lineSide, getSideOfLine, getPersonPosition, c3WState])
    rfl
    (by norm_num [lineSide, getSideOfLine, getPersonPosition, c3WState])
    (by norm_num [dispSq, getPersonPosition, defaultConfig, c3WState])
  have hs := h.1 rfl
  have hneg : lineSide c3WState.line (getPersonPosition (.pt 7 340 100)) < 0 := by
    norm_num [lineSide, getSideOfLine, getPersonPosition, c3WState]
  exact ⟨(hs.2.1 hneg).1, (hs.2.1 hneg).2.1, hs.2.2.1, hs.2.2.2⟩

/-! ### C4: persons in cooldown are skipped until the cooldown is purged -/

theorem lineStep_cooldown_skip (cfg : CounterConfig) (now : Rat) (s : LineProc)
    (d : Detection) (e : Rat) (h : alookup s.cooldown d.pid = some e) :
    lineStep cfg now s d = s := by
  simp [lineStep, h]

theorem foldl_lineStep_skip (cfg : CounterConfig) (now : Rat) (s : LineProc)
    (pid : Nat) (e : Rat) (h : alookup s.cooldown pid = some e) :
    ∀ dets : List Detection, (∀ d ∈ dets, d.pid = pid) →
      dets.foldl (lineStep cfg now) s = s := by
  intro dets
  induction dets with
  | nil => intro _; rfl
  | cons d rest ih =>
    intro hall
    have hd : d.pid = pid := hall d (List.mem_cons_self _ _)
    have hskip : lineStep cfg now s d = s :=
      lineStep_cooldown_skip cfg now s d e (by rw [hd]; exact h)
    rw [List.foldl_cons, hskip]
    exact ih fun d' hd' => hall d' (List.mem_cons_of_mem _ hd')

theorem runLineFrames_cooldown_frozen (cfg : CounterConfig) :
    ∀ (frames : List (List Detection × Rat)) (s : LineProc) (pid : Nat) (e : Rat),
      alookup s.cooldown pid = some e →
      (∀ fr ∈ frames, fr.2 ≤ e ∧ ∀ d ∈ fr.1, d.pid = pid) →
      (runLineFrames cfg s frames).line = s.line ∧
      alookup (runLineFrames cfg s frames).cooldown pid = some e := by
  intro frames
  induction frames with
  | nil => intro s pid e h _; exact ⟨rfl, h⟩
  | cons fr rest ih =>
    intro s pid e h hfr
    rcases fr with ⟨dets, t⟩
    have hft := hfr (dets, t) (List.mem_cons_self _ _)
    have hcd2 : alookup (purgeCooldowns (pruneTracker s (dets.map Detection.pid)) t).cooldown
        pid = some e := by
      unfold purgeCooldowns pruneTracker
      apply alookup_filter_of_pass _ _ _ _ h
      simp only [decide_eq_true_eq]
      intro hgt
      exact absurd hft.1 (not_le.mpr hgt)
    have hfold : processLine cfg s dets (dets.map Detection.pid) t =
        purgeCooldowns (pruneTracker s (dets.map Detection.pid)) t := by
      unfold processLine
      exact foldl_lineStep_skip cfg t _ pid e hcd2 dets hft.2
    have hrest := ih (processLine cfg s dets (dets.map Detection.pid) t) pid e
      (by rw [hfold]; exact hcd2)
      (fun fr' hfr' => hfr fr' (List.mem_cons_of_mem _ hfr'))
    refine ⟨?_, hrest.2⟩
    rw [show runLineFrames cfg s ((dets, t) :: rest) =
      runLineFrames cfg (processLine cfg s dets (dets.map Detection.pid) t) rest from rfl]
    rw [hrest.1, hfold]
    rfl

/-- C4.  A person in the cooldown map is skipped entirely by line
processing — the per-detection step leaves the whole line state
unchanged; the purge at the top of `_process_lines` deletes a cooldown
entry exactly when the frame time is past its expiry (and otherwise
keeps it); consequently, over any sequence of frames at times up to the
expiry in which the person appears, the line's counters and history are
unchanged and the cooldown entry persists — at most one crossing per
person per cooldown window. -/
theorem C4_cooldown_skips_and_purges (cfg : CounterConfig) (now : Rat) :
    (∀ (s : LineProc) (d : Detection) (e : Rat),
       alookup s.cooldown d.pid = some e → lineStep cfg now s d = s) ∧
    (∀ (s : LineProc) (pid : Nat) (e : Rat),
       (s.cooldown.map Prod.fst).Nodup →
       alookup s.cooldown pid = some e →
       alookup (purgeCooldowns s now).cooldown pid =
         (if now > e then none else some e)) ∧
    (∀ (frames : List (List Detection × Rat)) (s : LineProc) (pid : Nat) (e : Rat),
       alookup s.cooldown pid = some e →
       (∀ fr ∈ frames, fr.2 ≤ e ∧ ∀ d ∈ fr.1, d.pid = pid) →
       (runLineFrames cfg s frames).line = s.line ∧
       alookup (runLineFrames cfg s frames).cooldown pid = some e) := by
  refine ⟨fun s d e h => lineStep_cooldown_skip cfg now s d e h, ?_,
    fun frames s pid e h hfr => runLineFrames_cooldown_frozen cfg frames s pid e h hfr⟩
  intro s pid e hnd h
  unfold purgeCooldowns
  rw [alookup_filter_of_nodup _ _ _ hnd, h]
  by_cases hc : now > e <;> simp [hc]

def c4State : LineProc :=
  { line := ⟨(320, 0), (320, 480), 3, 2, []⟩,
    tracker := [], cooldown := [(4, 10)] }

/-- Witness for C4: person 4 in cooldown until t=10 is skipped at t=1;
the purge keeps the unexpired entry; a frame at t=1 changes nothing. -/
theorem C4_witness :
    lineStep defaultConfig 1 c4State (.pt 4 330 100) = c4State ∧
    alookup (purgeCooldowns c4State 1).cooldown 4 =
      (if (1 : Rat) > 10 then none else some 10) ∧
    (runLineFrames defaultConfig c4State [([Detection.pt 4 330 100], 1)]).line =
      c4State.line ∧
    alookup (runLineFrames defaultConfig c4State
      [([Detection.pt 4 330 100], 1)]).cooldown 4 = some 10 := by
  have h := C4_cooldown_skips_and_purges defaultConfig 1
  have h3 := h.2.2 [([Detection.pt 4 330 100], 1)] c4State 4 10 rfl
    (by
      intro fr hfr
      simp only [List.mem_singleton] at hfr
      subst hfr
      refine ⟨by norm_num, ?_⟩
      intro d hd
      simp only [List.mem_singleton] at hd
      subst hd
      rfl)
  exact ⟨h.1 c4State (.pt 4 330 100) 10 rfl, h.2.1 c4State 4 10 (by decide) rfl,
    h3.1, h3.2⟩

/-! ### C1: in_count increments exactly with qualified dwell-gated entries -/

theorem processZonesAux_preserve (cfg : CounterConfig) (dets : List Detection)
    (act : List Nat) (now : Rat) :
    ∀ (zs : List (String × ZoneData)) (s : CamState)
      (evs : List (String × ZoneEvents)) (name : String),
      name ∉ zs.map Prod.fst →
      alookup (processZonesAux cfg dets act now zs s evs).1.zones name =
        alookup s.zones name ∧
      alookup (processZonesAux cfg dets act now zs s evs).2 name =
        alookup evs name := by
  intro zs
  induction zs with
  | nil => intro s evs name _; exact ⟨rfl, rfl⟩
  | cons z rest ih =>
    intro s evs name hmem
    rcases z with ⟨n, zd⟩
    simp only [List.map_cons, List.mem_cons] at hmem
    push_neg at hmem
    constructor
    · rw [show (processZonesAux cfg dets act now ((n, zd) :: rest) s evs) =
        processZonesAux cfg dets act now rest _ _ from rfl,
        (ih _ _ name hmem.2).1]
      exact alookup_aset_ne _ _ _ _ hmem.1
    · rw [show (processZonesAux cfg dets act now ((n, zd) :: rest) s evs) =
        processZonesAux cfg dets act now rest _ _ from rfl,
        (ih _ _ name hmem.2).2, alookup_append]
      cases hev : alookup evs name <;> simp [hev, alookup, Ne.symm hmem.1]

theorem processZonesAux_found (cfg : CounterConfig) (dets : List Detection)
    (act : List Nat) (now : Rat) :
    ∀ (zs : List (String × ZoneData)) (s : CamState)
      (evs : List (String × ZoneEvents)) (name : String) (zd : ZoneData),
      (zs.map Prod.fst).Nodup →
      alookup evs name = none →
      alookup zs name = some zd →
      ∃ buf dwl,
        alookup (processZonesAux cfg dets act now zs s evs).1.zones name =
          some (processZone cfg zd buf dwl dets act now).zone ∧
        alookup (processZonesAux cfg dets act now zs s evs).2 name =
          some ((processZone cfg zd buf dwl dets act now).entries,
                (processZone cfg zd buf dwl dets act now).exits) := by
  intro zs
  induction zs with
  | nil => intro s evs name zd _ _ hz; simp [alookup] at hz
  | cons z rest ih =>
    intro s evs name zd hnd hev hz
    rcases z with ⟨n, zn⟩
    simp only [List.map_cons, List.nodup_cons] at hnd
    by_cases hn : n = name
    · subst hn
      simp only [alookup, if_pos rfl] at hz
      injection hz with hz
      subst hz
      refine ⟨alookupD s.stateBuffer n, alookupD s.dwellTracker n, ?_, ?_⟩
      · rw [show (processZonesAux cfg dets act now ((n, zn) :: rest) s evs) =
          processZonesAux cfg dets act now rest _ _ from rfl,
          (processZonesAux_preserve cfg dets act now rest _ _ n hnd.1).1]
        exact alookup_aset_self _ _ _
      · rw [show (processZonesAux cfg dets act now ((n, zn) :: rest) s evs) =
          processZonesAux cfg dets act now rest _ _ from rfl,
          (processZonesAux_preserve cfg dets act now rest _ _ n hnd.1).2,
          alookup_append, hev]
        simp [alookup]
    · have hz' : alookup rest name = some zd := by
        simpa [alookup, hn] using hz
      have hev' : alookup (evs ++ [(n,
          ((processZone cfg zn (alookupD s.stateBuffer n) (alookupD s.dwellTracker n)
            dets act now).entries,
           (processZone cfg zn (alookupD s.stateBuffer n) (alookupD s.dwellTracker n)
            dets act now).exits))]) name = (none : Option ZoneEvents) := by
        rw [alookup_append, hev]
        simp [alookup, hn]
      exact ih _ _ name zd hnd.2 hev' hz'

theorem processLinesAux_zones (cfg : CounterConfig) (dets : List Detection)
    (act : List Nat) (now : Rat) :
    ∀ (ls : List (String × LineData)) (s : CamState),
      (processLinesAux cfg dets act now ls s).zones = s.zones := by
  intro ls
  induction ls with
  | nil => intro s; rfl
  | cons l rest ih =>
    intro s
    rcases l with ⟨n, ld⟩
    exact ih _

theorem updateCounts_zones_eq (cfg : CounterConfig) (st : CamState)
    (dets : List Detection) (now : Rat) :
    (updateCounts cfg st dets now).1.zones =
      (processZones cfg st (dets.filter validPersonData)
        ((dets.filter validPersonData).map Detection.pid) now).1.zones := by
  unfold updateCounts
  by_cases hc : now - st.last_cleanup > (cfg.cleanup_interval_minutes : Rat) * 60 <;>
    simp only [hc, if_pos, if_neg, not_false_iff, ite_true, ite_false] <;>
    exact processLinesAux_zones cfg _ _ now _ _

theorem zoneStep_entries_char (cfg : CounterConfig) (tl br : Int × Int)
    (now : Rat) (zs : ZoneProc) (d : Detection)
    (hne : (zoneStep cfg tl br now zs d).entries ≠ zs.entries) :
    (updateStateBuffer cfg (alookup zs.buffer d.pid)
       (isInZone cfg (getPersonPosition d) tl br) now).2 = true ∧
    (updateDwellTracker cfg (alookup zs.dwell d.pid)
       (isInZone cfg (getPersonPosition d) tl br) now).2.action =
      DwellAction.qualifiedEntry ∧
    (zoneStep cfg tl br now zs d).entries = zs.entries ++ [d.pid] := by
  by_cases hb : (updateStateBuffer cfg (alookup zs.buffer d.pid)
      (isInZone cfg (getPersonPosition d) tl br) now).2 = true
  · by_cases hq : (updateDwellTracker cfg (alookup zs.dwell d.pid)
        (isInZone cfg (getPersonPosition d) tl br) now).2.should_count = true ∧
      (updateDwellTracker cfg (alookup zs.dwell d.pid)
        (isInZone cfg (getPersonPosition d) tl br) now).2.action =
        DwellAction.qualifiedEntry
    · exact ⟨hb, hq.2, by simp [zoneStep, hb, hq]⟩
    · exact absurd (by simp [zoneStep, hb, hq]) hne
  · exact absurd (by simp [zoneStep, hb]) hne

theorem zoneAbsentStep_entries (cfg : CounterConfig) (now : Rat)
    (act : List Nat) (s : ZoneProc) (pid : Nat) :
    (zoneAbsentStep cfg now act s pid).entries = s.entries := by
  by_cases h : pid ∈ act <;> simp [zoneAbsentStep, h]

theorem foldl_zoneAbsentStep_entries (cfg : CounterConfig) (now : Rat)
    (act : List Nat) :
    ∀ (l : List Nat) (s : ZoneProc),
      (l.foldl (zoneAbsentStep cfg now act) s).entries = s.entries := by
  intro l
  induction l with
  | nil => intro s; rfl
  | cons p rest ih =>
    intro s
    rw [List.foldl_cons, ih, zoneAbsentStep_entries]

theorem dwell_qualified_char (cfg : CounterConfig) (s : Option DwellEntry)
    (b : Bool) (t : Rat)
    (h : (updateDwellTracker cfg s b t).2.action = DwellAction.qualifiedEntry) :
    ∃ d, s = some d ∧ d.counted = false ∧
      cfg.min_dwell_time ≤ t - d.entry_time ∧
      ∃ d', (updateDwellTracker cfg s b t).1 = some d' ∧ d'.counted = true := by
  rcases s with _ | e
  · cases b <;> simp [updateDwellTracker] at h
  · cases b with
    | true =>
      by_cases hst : e.state = PState.exiting
      · simp [updateDwellTracker, hst] at h
      · by_cases hq : e.counted = false ∧ cfg.min_dwell_time ≤ t - e.entry_time
        · exact ⟨e, rfl, hq.1, hq.2,
            { e with last_seen := t, counted := true },
            by simp [updateDwellTracker, hst, hq], rfl⟩
        · simp [updateDwellTracker, hst, hq] at h
    | false =>
      by_cases hst : e.state = PState.inside
      · simp [updateDwellTracker, hst] at h
      · cases het : e.exit_time with
        | none => simp [updateDwellTracker, hst, het] at h
        | some et =>
          by_cases hg : t - et ≥ cfg.exit_grace_time
          · simp [updateDwellTracker, hst, het, hg] at h
          · simp [updateDwellTracker, hst, het, hg] at h

/-- C1.  For every zone, after an `update_counts` call the zone's
`in_count` equals its previous value plus the number of confirmed
dwell-gated entry events the call produced for that zone (so `in_count`
never decreases during counting); a dwell update reports a qualified
entry only for a person whose record was not yet counted and whose dwell
time has reached `min_dwell_time`, marking it counted; the detection
loop appends to `entries_to_count` only on such a qualified entry, and
the absent-person loop never appends entries — the qualified-entry path
is the only one that increments `in_count`. -/
theorem C1_in_count_counts_qualified_entries (cfg : CounterConfig)
    (st : CamState) (dets : List Detection) (now : Rat) (name : String)
    (zd : ZoneData)
    (hnd : (st.zones.map Prod.fst).Nodup)
    (hz : alookup st.zones name = some zd) :
    (∃ ev : ZoneEvents,
       alookup (updateCounts cfg st dets now).2 name = some ev ∧
       ∃ zd', alookup (updateCounts cfg st dets now).1.zones name = some zd' ∧
         zd'.in_count = zd.in_count + ev.1.length ∧
         zd.in_count ≤ zd'.in_count) ∧
    (∀ (s : Option DwellEntry) (b : Bool) (t : Rat),
       (updateDwellTracker cfg s b t).2.action = DwellAction.qualifiedEntry →
       ∃ d, s = some d ∧ d.counted = false ∧
         cfg.min_dwell_time ≤ t - d.entry_time ∧
         ∃ d', (updateDwellTracker cfg s b t).1 = some d' ∧ d'.counted = true) ∧
    (∀ (tl br : Int × Int) (t : Rat) (zs : ZoneProc) (d : Detection),
       (zoneStep cfg tl br t zs d).entries ≠ zs.entries →
       (updateStateBuffer cfg (alookup zs.buffer d.pid)
          (isInZone cfg (getPersonPosition d) tl br) t).2 = true ∧
       (updateDwellTracker cfg (alookup zs.dwell d.pid)
          (isInZone cfg (getPersonPosition d) tl br) t).2.action =
         DwellAction.qualifiedEntry ∧
       (zoneStep cfg tl br t zs d).entries = zs.entries ++ [d.pid]) ∧
    (∀ (act : List Nat) (t : Rat) (s : ZoneProc),
       (zoneAbsent cfg t act s).entries = s.entries) := by
  refine ⟨?_,
    fun s b t h => dwell_qualified_char cfg s b t h,
    fun tl br t zs d hne => zoneStep_entries_char cfg tl br t zs d hne,
    fun act t s => foldl_zoneAbsentStep_entries cfg t act _ s⟩
  obtain ⟨buf, dwl, hzz, hev⟩ := processZonesAux_found cfg
    (dets.filter validPersonData) ((dets.filter validPersonData).map Detection.pid)
    now st.zones st [] name zd hnd rfl hz
  refine ⟨((processZone cfg zd buf dwl (dets.filter validPersonData)
      ((dets.filter validPersonData).map Detection.pid) now).entries,
    (processZone cfg zd buf dwl (dets.filter validPersonData)
      ((dets.filter validPersonData).map Detection.pid) now).exits), hev, ?_⟩
  refine ⟨(processZone cfg zd buf dwl (dets.filter validPersonData)
      ((dets.filter validPersonData).map Detection.pid) now).zone, ?_, rfl,
    Nat.le_add_right _ _⟩
  rw [updateCounts_zones_eq]
  exact hzz

def c1State : CamState :=
  { zones := [("z", ⟨(0, 0), (1920, 1080), 2, 1, [], []⟩)], lines := [],
    insideZones := [("z", [])],
    stateBuffer := [("z", [(1, ⟨true, 2, 0⟩)])],
    dwellTracker := [("z", [(1, ⟨0, 0, false, none, .inside⟩)])],
    lineTracker := [], cooldownTracker := [], last_cleanup := 0 }

/-- Witness for C1 on a concrete store: person 1 has dwelled since t=0 and
the frame at t=5 produces their qualified entry. -/
theorem C1_witness :
    (∃ ev : ZoneEvents,
       alookup (updateCounts defaultConfig c1State [Detection.pt 1 200 200] 5).2 "z" =
         some ev ∧
       ∃ zd', alookup
           (updateCounts defaultConfig c1State [Detection.pt 1 200 200] 5).1.zones "z" =
           some zd' ∧
         zd'.in_count =
           (⟨(0, 0), (1920, 1080), 2, 1, [], []⟩ : ZoneData).in_count + ev.1.length ∧
         (⟨(0, 0), (1920, 1080), 2, 1, [], []⟩ : ZoneData).in_count ≤ zd'.in_count) ∧
    (∀ (s : Option DwellEntry) (b : Bool) (t : Rat),
       (updateDwellTracker defaultConfig s b t).2.action = DwellAction.qualifiedEntry →
       ∃ d, s = some d ∧ d.counted = false ∧
         defaultConfig.min_dwell_time ≤ t - d.entry_time ∧
         ∃ d', (updateDwellTracker defaultConfig s b t).1 = some d' ∧ d'.counted = true) ∧
    (∀ (tl br : Int × Int) (t : Rat) (zs : ZoneProc) (d : Detection),
       (zoneStep defaultConfig tl br t zs d).entries ≠ zs.entries →
       (updateStateBuffer defaultConfig (alookup zs.buffer d.pid)
          (isInZone defaultConfig (getPersonPosition d) tl br) t).2 = true ∧
       (updateDwellTracker defaultConfig (alookup zs.dwell d.pid)
          (isInZone defaultConfig (getPersonPosition d) tl br) t).2.action =
         DwellAction.qualifiedEntry ∧
       (zoneStep defaultConfig tl br t zs d).entries = zs.entries ++ [d.pid]) ∧
    (∀ (act : List Nat) (t : Rat) (s : ZoneProc),
       (zoneAbsent defaultConfig t act s).entries = s.entries) :=
  C1_in_count_counts_qualified_entries defaultConfig c1State
    [Detection.pt 1 200 200] 5 "z" ⟨(0, 0), (1920, 1080), 2, 1, [], []⟩
    (List.nodup_singleton "z") rfl

/-! ### C6: inside_ids versus stable-inside buffers -/

theorem zoneStep_buffer_pid (cfg : CounterConfig) (tl br : Int × Int)
    (now : Rat) (zs : ZoneProc) (d : Detection) :
    alookup (zoneStep cfg tl br now zs d).buffer d.pid =
      some (updateStateBuffer cfg (alookup zs.buffer d.pid)
        (isInZone cfg (getPersonPosition d) tl br) now).1 := by
  by_cases hb : (updateStateBuffer cfg (alookup zs.buffer d.pid)
      (isInZone cfg (getPersonPosition d) tl br) now).2 = true <;>
    simp [zoneStep, hb, alookup_aset_self]

theorem zoneStep_buffer_ne (cfg : CounterConfig) (tl br : Int × Int)
    (now : Rat) (zs : ZoneProc) (d : Detection) (q : Nat) (h : q ≠ d.pid) :
    alookup (zoneStep cfg tl br now zs d).buffer q = alookup zs.buffer q := by
  by_cases hb : (updateStateBuffer cfg (alookup zs.buffer d.pid)
      (isInZone cfg (getPersonPosition d) tl br) now).2 = true <;>
    simp [zoneStep, hb, alookup_aset_ne _ _ _ _ h]

theorem zoneFold_buffer_not_mem (cfg : CounterConfig) (tl br : Int × Int)
    (now : Rat) :
    ∀ (dets : List Detection) (s : ZoneProc) (q : Nat),
      q ∉ dets.map Detection.pid →
      alookup (dets.foldl (zoneStep cfg tl br now) s).buffer q =
        alookup s.buffer q := by
  intro dets
  induction dets with
  | nil => intro s q _; rfl
  | cons d rest ih =>
    intro s q hq
    simp only [List.map_cons, List.mem_cons] at hq
    push_neg at hq
    rw [List.foldl_cons, ih _ q hq.2]
    exact zoneStep_buffer_ne cfg tl br now s d q hq.1

theorem zoneStep_currentInside_mem (cfg : CounterConfig) (tl br : Int × Int)
    (now : Rat) (zs : ZoneProc) (d : Detection) (q : Nat) :
    q ∈ (zoneStep cfg tl br now zs d).currentInside ↔
      (q ∈ zs.currentInside ∨
       (q = d.pid ∧
        (updateStateBuffer cfg (alookup zs.buffer d.pid)
          (isInZone cfg (getPersonPosition d) tl br) now).2 = true ∧
        isInZone cfg (getPersonPosition d) tl br = true)) := by
  cases hin : isInZone cfg (getPersonPosition d) tl br with
  | false =>
    have hstep : (zoneStep cfg tl br now zs d).currentInside = zs.currentInside := by
      by_cases hb : (updateStateBuffer cfg (alookup zs.buffer d.pid) false now).2 = true <;>
        simp [zoneStep, hin, hb]
    rw [hstep]
    constructor
    · exact fun h => Or.inl h
    · rintro (h | ⟨_, _, hfalse⟩)
      · exact h
      · cases hfalse
  | true =>
    by_cases hb : (updateStateBuffer cfg (alookup zs.buffer d.pid) true now).2 = true
    · by_cases hmem : d.pid ∈ zs.currentInside
      · have hstep : (zoneStep cfg tl br now zs d).currentInside =
            zs.currentInside := by
          simp [zoneStep, hin, hb, hmem]
        rw [hstep]
        constructor
        · exact fun h => Or.inl h
        · rintro (h | ⟨rfl, _, _⟩)
          · exact h
          · exact hmem
      · have hstep : (zoneStep cfg tl br now zs d).currentInside =
            zs.currentInside ++ [d.pid] := by
          simp [zoneStep, hin, hb, hmem]
        rw [hstep, List.mem_append, List.mem_singleton]
        constructor
        · rintro (h | rfl)
          · exact Or.inl h
          · exact Or.inr ⟨rfl, hb, rfl⟩
        · rintro (h | ⟨rfl, _, _⟩)
          · exact Or.inl h
          · exact Or.inr rfl
    · have hstep : (zoneStep cfg tl br now zs d).currentInside =
          zs.currentInside := by
        simp [zoneStep, hin, hb]
      rw [hstep]
      constructor
      · exact fun h => Or.inl h
      · rintro (h | ⟨rfl, hb', _⟩)
        · exact h
        · exact absurd hb' hb

theorem stable_stableInside_iff (cfg : CounterConfig)
    (h2 : 2 ≤ cfg.min_dwell_frames) (ob : Option BufEntry) (c : Bool)
    (now : Rat) :
    ((updateStateBuffer cfg ob c now).2 = true ∧ c = true) ↔
      stableInsideB cfg (some (updateStateBuffer cfg ob c now).1) = true := by
  rcases ob with _ | d
  · simp only [updateStateBuffer, stableInsideB, Bool.and_eq_true,
      decide_eq_true_eq]
    constructor
    · rintro ⟨h, _⟩; cases h
    · rintro ⟨_, hcnt⟩; omega
  · by_cases hd : d.state = c
    · have hne : ¬ (d.state ≠ c) := not_ne_iff.mpr hd
      simp only [updateStateBuffer, if_neg hne, stableInsideB,
        Bool.and_eq_true, decide_eq_true_eq, ge_iff_le, hd]
      cases c <;> simp
    · simp only [updateStateBuffer, if_pos hd, stableInsideB,
        Bool.and_eq_true, decide_eq_true_eq]
      constructor
      · rintro ⟨h, _⟩; cases h
      · rintro ⟨_, hcnt⟩; omega

theorem zoneFold_inside_iff (cfg : CounterConfig) (tl br : Int × Int)
    (now : Rat) (h2 : 2 ≤ cfg.min_dwell_frames) :
    ∀ (dets : List Detection) (s : ZoneProc),
      (dets.map Detection.pid).Nodup →
      (∀ q ∈ dets.map Detection.pid, q ∉ s.currentInside) →
      ∀ q, (q ∈ (dets.foldl (zoneStep cfg tl br now) s).currentInside ↔
        ((q ∈ s.currentInside ∧ q ∉ dets.map Detection.pid) ∨
         (q ∈ dets.map Detection.pid ∧
          stableInsideB cfg
            (alookup (dets.foldl (zoneStep cfg tl br now) s).buffer q) = true))) := by
  intro dets
  induction dets with
  | nil =>
    intro s _ _ q
    simp
  | cons d rest ih =>
    intro s hnd hpre q
    simp only [List.map_cons, List.nodup_cons] at hnd
    have hpre' : ∀ p ∈ rest.map Detection.pid,
        p ∉ (zoneStep cfg tl br now s d).currentInside := by
      intro p hp hmem
      rcases (zoneStep_currentInside_mem cfg tl br now s d p).mp hmem with hm | hm
      · exact hpre p (List.mem_cons_of_mem _ hp) hm
      · exact hnd.1 (hm.1 ▸ hp)
    have hmain := ih (zoneStep cfg tl br now s d) hnd.2 hpre' q
    rw [List.foldl_cons]
    rw [hmain]
    by_cases hq : q = d.pid
    · subst hq
      have hbuf : alookup
          (rest.foldl (zoneStep cfg tl br now) (zoneStep cfg tl br now s d)).buffer
          d.pid = alookup (zoneStep cfg tl br now s d).buffer d.pid :=
        zoneFold_buffer_not_mem cfg tl br now rest _ d.pid hnd.1
      rw [hbuf, zoneStep_buffer_pid]
      have hnotin : d.pid ∉ s.currentInside := hpre d.pid (by simp)
      have hcur : d.pid ∈ (zoneStep cfg tl br now s d).currentInside ↔
          ((updateStateBuffer cfg (alookup s.buffer d.pid)
            (isInZone cfg (getPersonPosition d) tl br) now).2 = true ∧
           isInZone cfg (getPersonPosition d) tl br = true) := by
        rw [zoneStep_currentInside_mem]
        simp [hnotin]
      rw [← stable_stableInside_iff cfg h2]
      simp [hnd.1, hnotin, hcur]
    · have hcur : q ∈ (zoneStep cfg tl br now s d).currentInside ↔
          q ∈ s.currentInside := by
        rw [zoneStep_currentInside_mem]
        simp [hq]
      simp [hcur, hq]

theorem zoneAbsentStep_inside_buffer (cfg : CounterConfig) (now : Rat)
    (act : List Nat) (s : ZoneProc) (pid : Nat) :
    (zoneAbsentStep cfg now act s pid).currentInside = s.currentInside ∧
    (zoneAbsentStep cfg now act s pid).buffer = s.buffer := by
  by_cases h : pid ∈ act <;> simp [zoneAbsentStep, h]

theorem zoneAbsent_inside_buffer (cfg : CounterConfig) (now : Rat)
    (act : List Nat) (s : ZoneProc) :
    (zoneAbsent cfg now act s).currentInside = s.currentInside ∧
    (zoneAbsent cfg now act s).buffer = s.buffer := by
  unfold zoneAbsent
  generalize s.dwell.map Prod.fst = l
  induction l generalizing s with
  | nil => exact ⟨rfl, rfl⟩
  | cons p rest ih =>
    rw [List.foldl_cons]
    have hstep := zoneAbsentStep_inside_buffer cfg now act s p
    have := ih (zoneAbsentStep cfg now act s p)
    exact ⟨this.1.trans hstep.1, this.2.trans hstep.2⟩

/-- C6 (amended).  After processing a zone, `inside_ids` equals the set of
persons *detected in the current frame* whose debounce buffer is
stable-inside after the update (for any configuration with
`min_dwell_frames ≥ 2` and distinct detection ids); persons whose buffer
is stable-inside but who are absent from the frame are dropped from
`inside_ids`. -/
theorem C6_amended_inside_ids (cfg : CounterConfig) (z : ZoneData)
    (buffer : List (Nat × BufEntry)) (dwl : List (Nat × DwellEntry))
    (dets : List Detection) (act : List Nat) (now : Rat)
    (h2 : 2 ≤ cfg.min_dwell_frames)
    (hnd : (dets.map Detection.pid).Nodup) :
    ∀ q, q ∈ (processZone cfg z buffer dwl dets act now).zone.inside_ids ↔
      (q ∈ dets.map Detection.pid ∧
       stableInsideB cfg
         (alookup (processZone cfg z buffer dwl dets act now).buffer q) = true) := by
  intro q
  have habs := zoneAbsent_inside_buffer cfg now act
    (dets.foldl (zoneStep cfg z.top_left z.bottom_right now) ⟨buffer, dwl, [], [], []⟩)
  have hmain := zoneFold_inside_iff cfg z.top_left z.bottom_right now h2 dets
    ⟨buffer, dwl, [], [], []⟩ hnd (by intro p _ hmem; simp at hmem) q
  show q ∈ (zoneAbsent cfg now act _).currentInside ↔
    (q ∈ dets.map Detection.pid ∧
     stableInsideB cfg (alookup (zoneAbsent cfg now act _).buffer q) = true)
  rw [habs.1, habs.2, hmain]
  simp

def c6State : CamState :=
  { zones := [("z", ⟨(0, 0), (1920, 1080), 0, 0, [], []⟩)], lines := [],
    insideZones := [("z", [])], stateBuffer := [("z", [])],
    dwellTracker := [("z", [])], lineTracker := [], cooldownTracker := [],
    last_cleanup := 0 }

def c6Run : CamState :=
  ([([Detection.pt 1 200 200], 0), ([Detection.pt 1 200 200], 1),
    ([Detection.pt 1 200 200], 2), ([], 3)] :
      List (List Detection × Rat)).foldl
    (fun s fr => (updateCounts defaultConfig s fr.1 fr.2).1) c6State

/-- C6 counterexample.  Person 1 is stable-inside for three frames; in the
fourth `update_counts` call they are absent from the detection set.  Their
debounce buffer is still stable-inside (state true, count 3 ≥
`min_dwell_frames`), but `inside_ids` is rebuilt from the detected people
only and comes out empty — so `inside_ids` is not the set of persons
whose buffer is stable-inside. -/
theorem C6_counterexample :
    (alookup c6Run.zones "z").map ZoneData.inside_ids = some [] ∧
    alookup c6Run.insideZones "z" = some [] ∧
    stableInsideB defaultConfig (alookup (alookupD c6Run.stateBuffer "z") 1) = true := by
  refine ⟨?_, ?_, ?_⟩ <;>
  norm_num [c6Run, c6State, updateCounts, processZones, processZonesAux,
    processZone, zoneStep, zoneAbsent, zoneAbsentStep, updateStateBuffer,
    updateDwellTracker, isInZone, getPersonPosition, validPersonData,
    Detection.pid, alookup, alookupD, aset, aerase, trimHistory,
    processLinesAll, processLinesAux, performCleanup, defaultConfig,
    stableInsideB]

/-- Witness for C6's amended statement: with person 1 detected and already
at buffer count 2, the frame makes the buffer stable-inside and
`inside_ids` contains person 1 and not the undetected person 2. -/
theorem C6_witness :
    (1 ∈ (processZone defaultConfig ⟨(0, 0), (1920, 1080), 0, 0, [], []⟩
        [(1, ⟨true, 2, 0⟩)] [] [Detection.pt 1 200 200] [1] 1).zone.inside_ids ↔
      (1 ∈ ([Detection.pt 1 200 200].map Detection.pid) ∧
       stableInsideB defaultConfig
         (alookup (processZone defaultConfig ⟨(0, 0), (1920, 1080), 0, 0, [], []⟩
           [(1, ⟨true, 2, 0⟩)] [] [Detection.pt 1 200 200] [1] 1).buffer 1) = true)) ∧
    (2 ∈ (processZone defaultConfig ⟨(0, 0), (1920, 1080), 0, 0, [], []⟩
        [(1, ⟨true, 2, 0⟩)] [] [Detection.pt 1 200 200] [1] 1).zone.inside_ids ↔
      (2 ∈ ([Detection.pt 1 200 200].map Detection.pid) ∧
       stableInsideB defaultConfig
         (alookup (processZone defaultConfig ⟨(0, 0), (1920, 1080), 0, 0, [], []⟩
           [(1, ⟨true, 2, 0⟩)] [] [Detection.pt 1 200 200] [1] 1).buffer 2) = true)) :=
  ⟨C6_amended_inside_ids defaultConfig ⟨(0, 0), (1920, 1080), 0, 0, [], []⟩
    [(1, ⟨true, 2, 0⟩)] [] [Detection.pt 1 200 200] [1] 1 (by decide) (by simp) 1,
   C6_amended_inside_ids defaultConfig ⟨(0, 0), (1920, 1080), 0, 0, [], []⟩
    [(1, ⟨true, 2, 0⟩)] [] [Detection.pt 1 200 200] [1] 1 (by decide) (by simp) 2⟩

end Counter
